import Mathlib

/-!
Verification of the LUNA25-UET browser client against its design
specification.  The development shallowly embeds the JavaScript values and
the data-shaping functions of the client (the submissions normalizer of the
Submissions view, the list unwrapping of the list views, the dataset stats
normalizer, the auth/session store, the upload precondition check, the
timestamp formatter and the notebook iframe URL) and proves or refutes the
frozen claims about them.

JavaScript values are modelled by the inductive type JVal below; a missing
or undefined object property is modelled by Option.none; assigning
undefined to a property is modelled by setting the field to none.  JSON
numbers are modelled by rationals instead of IEEE doubles: no claim under
verification depends on float rounding.  JSON.parse is reimplemented below
(parseJson) faithfully to the JSON grammar, including last-wins duplicate
object keys as in JavaScript.
-/

/-- A JavaScript/JSON value: null, boolean, number, string, array, object.
Objects are association lists with unique keys (as produced by parseJson). -/
inductive JVal where
  | null : JVal
  | bool : Bool → JVal
  | num : ℚ → JVal
  | str : String → JVal
  | arr : List JVal → JVal
  | obj : List (String × JVal) → JVal
deriving Repr

/-- JavaScript truthiness of a value. -/
def truthy : JVal → Bool
  | .null => false
  | .bool b => b
  | .num q => decide (q ≠ 0)
  | .str s => decide (s ≠ "")
  | .arr _ => true
  | .obj _ => true

/-- Truthiness of a possibly-absent property (undefined is falsy). -/
def truthyO : Option JVal → Bool
  | none => false
  | some v => truthy v

/-- typeof v === "string" in JavaScript. -/
def isStringV : JVal → Bool
  | .str _ => true
  | _ => false

/-- typeof v === "object" in JavaScript: objects, arrays and null. -/
def isObjectTypeof : JVal → Bool
  | .obj _ => true
  | .arr _ => true
  | .null => true
  | _ => false

/-- Property access v[k] for the non-numeric keys used by the client:
defined only on objects, undefined (none) on every other value. -/
def jsGet : JVal → String → Option JVal
  | .obj fs, k => (fs.find? (fun p => p.1 == k)).map (fun p => p.2)
  | _, _ => none

/-- The JavaScript nullish coalescing a ?? b on a possibly-absent left
operand: take b when a is undefined or null. -/
def jsNullish (a : Option JVal) (b : JVal) : JVal :=
  match a with
  | none => b
  | some .null => b
  | some v => v

/-- The JavaScript a || b on possibly-absent operands: take b when a is
absent or falsy. -/
def jsOr (a b : Option JVal) : Option JVal :=
  if truthyO a then a else b

/-- JSON whitespace. -/
def isJsonWs (c : Char) : Bool :=
  c == ' ' || c == '\n' || c == '\t' || c == '\r'

/-- Drop leading JSON whitespace. -/
def skipWs : List Char → List Char
  | [] => []
  | c :: cs => if isJsonWs c then skipWs cs else c :: cs

/-- Value of a hexadecimal digit. -/
def hexDigit (c : Char) : Option Nat :=
  if c.isDigit then some (c.toNat - 48)
  else if 'a' ≤ c && c ≤ 'f' then some (c.toNat - 87)
  else if 'A' ≤ c && c ≤ 'F' then some (c.toNat - 55)
  else none

/-- Decode one escape character of the JSON grammar (without the u
escapes). -/
def escChar (e : Char) : Option Char :=
  if e == '"' then some '"'
  else if e == '\\' then some '\\'
  else if e == '/' then some '/'
  else if e == 'b' then some (Char.ofNat 8)
  else if e == 'f' then some (Char.ofNat 12)
  else if e == 'n' then some '\n'
  else if e == 'r' then some (Char.ofNat 13)
  else if e == 't' then some '\t'
  else none

/-- Parse the body of a JSON string literal after the opening quote,
handling the escape sequences of the JSON grammar.  Returns the decoded
string and the input after the closing quote. -/
def parseStrBody (acc : List Char) : List Char → Option (String × List Char)
  | [] => none
  | '"' :: rest => some (⟨acc.reverse⟩, rest)
  | '\\' :: 'u' :: h1 :: h2 :: h3 :: h4 :: rest3 =>
    match hexDigit h1, hexDigit h2, hexDigit h3, hexDigit h4 with
    | some a, some b, some c2, some d =>
      parseStrBody (Char.ofNat (((a * 16 + b) * 16 + c2) * 16 + d) :: acc) rest3
    | _, _, _, _ => none
  | '\\' :: e :: rest2 =>
    match escChar e with
    | some c2 => parseStrBody (c2 :: acc) rest2
    | none => none
  | c :: rest => if c.toNat < 32 then none else parseStrBody (c :: acc) rest

/-- Decimal value of a digit list. -/
def digitsVal (ds : List Char) : Nat :=
  ds.foldl (fun a c => a * 10 + (c.toNat - 48)) 0

/-- Parse a JSON number (sign, integer part without leading zeros,
optional fraction, optional exponent) into a rational. -/
def parseNum (cs : List Char) : Option (JVal × List Char) :=
  let neg := match cs with | c :: _ => c == '-' | [] => false
  let cs1 := if neg then cs.tail else cs
  let ip := cs1.takeWhile Char.isDigit
  let r1 := cs1.dropWhile Char.isDigit
  if ip.isEmpty then none
  else if ip.length > 1 && ip.headD '1' == '0' then none
  else
    let hasFrac := match r1 with | c :: _ => c == '.' | [] => false
    let fd := if hasFrac then r1.tail.takeWhile Char.isDigit else []
    let r2 := if hasFrac then r1.tail.dropWhile Char.isDigit else r1
    if hasFrac && fd.isEmpty then none
    else
      let hasExp := match r2 with | c :: _ => c == 'e' || c == 'E' | [] => false
      let t := if hasExp then r2.tail else r2
      let eneg := hasExp && (match t with | c :: _ => c == '-' | [] => false)
      let t2 := if hasExp && (match t with | c :: _ => c == '-' || c == '+' | [] => false) then t.tail else t
      let ed := if hasExp then t2.takeWhile Char.isDigit else []
      let r3 := if hasExp then t2.dropWhile Char.isDigit else r2
      if hasExp && ed.isEmpty then none
      else
        let nVal : Nat := digitsVal ip * 10 ^ fd.length + digitsVal fd
        let nNum : Nat := if eneg then nVal else nVal * 10 ^ digitsVal ed
        let nDen : Nat := if eneg then 10 ^ fd.length * 10 ^ digitsVal ed else 10 ^ fd.length
        let mag : ℚ := mkRat (if neg then -(nNum : ℤ) else (nNum : ℤ)) nDen
        some (.num mag, r3)

/-- Insert a key into an object under construction with the last-wins
semantics of duplicate keys in JSON.parse (the first position is kept, the
value is overwritten). -/
def putKey (fs : List (String × JVal)) (k : String) (v : JVal) : List (String × JVal) :=
  if fs.any (fun p => p.1 == k) then fs.map (fun p => if p.1 == k then (k, v) else p)
  else fs ++ [(k, v)]

mutual

/-- Fueled recursive-descent parse of one JSON value. -/
def parseVal : Nat → List Char → Option (JVal × List Char)
  | 0, _ => none
  | fuel + 1, cs =>
    match skipWs cs with
    | 'n' :: 'u' :: 'l' :: 'l' :: rest => some (.null, rest)
    | 't' :: 'r' :: 'u' :: 'e' :: rest => some (.bool true, rest)
    | 'f' :: 'a' :: 'l' :: 's' :: 'e' :: rest => some (.bool false, rest)
    | '"' :: rest => (parseStrBody [] rest).map (fun p => (.str p.1, p.2))
    | '[' :: rest =>
      match skipWs rest with
      | ']' :: rest2 => some (.arr [], rest2)
      | cs2 => parseArrItems fuel cs2 []
    | '{' :: rest =>
      match skipWs rest with
      | '}' :: rest2 => some (.obj [], rest2)
      | cs2 => parseObjItems fuel cs2 []
    | cs2 => parseNum cs2

/-- Fueled parse of array elements after the opening bracket. -/
def parseArrItems : Nat → List Char → List JVal → Option (JVal × List Char)
  | 0, _, _ => none
  | fuel + 1, cs, acc =>
    match parseVal fuel cs with
    | some (v, rest) =>
      match skipWs rest with
      | ',' :: rest2 => parseArrItems fuel (skipWs rest2) (v :: acc)
      | ']' :: rest2 => some (.arr (v :: acc).reverse, rest2)
      | _ => none
    | none => none

/-- Fueled parse of object members after the opening brace. -/
def parseObjItems : Nat → List Char → List (String × JVal) → Option (JVal × List Char)
  | 0, _, _ => none
  | fuel + 1, cs, acc =>
    match cs with
    | '"' :: rest =>
      match parseStrBody [] rest with
      | some (k, rest2) =>
        match skipWs rest2 with
        | ':' :: rest3 =>
          match parseVal fuel (skipWs rest3) with
          | some (v, rest4) =>
            match skipWs rest4 with
            | ',' :: rest5 => parseObjItems fuel (skipWs rest5) (putKey acc k v)
            | '}' :: rest5 => some (.obj (putKey acc k v), rest5)
            | _ => none
          | none => none
        | _ => none
      | none => none
    | _ => none

end

/-- The JSON.parse of the browser, returning none where JSON.parse throws. -/
def parseJson (s : String) : Option JVal :=
  match parseVal (2 * s.length + 2) s.data with
  | some (v, rest) => if (skipWs rest).isEmpty then some v else none
  | none => none

/-- Decimal rendering of a rational that is an integer; non-integers keep
the num/den form (String() of a non-integer number is never exercised by
the claims under verification). -/
def ratToString (q : ℚ) : String :=
  if q.den = 1 then toString q.num else toString q

mutual

/-- The JavaScript String(v) conversion. -/
def jsToString : JVal → String
  | .str s => s
  | .num q => ratToString q
  | .bool b => if b then "true" else "false"
  | .null => "null"
  | .obj _ => "[object Object]"
  | .arr xs => jsToStringList xs

/-- Array toString: elements joined by commas. -/
def jsToStringList : List JVal → String
  | [] => ""
  | [x] => jsToString x
  | x :: y :: xs => jsToString x ++ "," ++ jsToStringList (y :: xs)

end

/-!
The submission view model.  The normalizer in the Submissions view
(function loadAll) reads and writes only the fields below; the object
spread copies every other property unchanged, modelled by the untouched
field other. -/

/-- A submission record as handled by the Submissions view normalizer.
Every property the normalizer reads or writes is a field (none means the
property is absent or undefined); all remaining properties of the record
are carried verbatim in other. -/
@[ext] structure SubRec where
  score_json : Option JVal := none
  metrics : Option JVal := none
  f1 : Option JVal := none
  precision : Option JVal := none
  «recall» : Option JVal := none
  accuracy : Option JVal := none
  auc : Option JVal := none
  score : Option JVal := none
  evaluated : Option JVal := none
  uploaded_at : Option JVal := none
  created_at : Option JVal := none
  created : Option JVal := none
  filename : Option JVal := none
  file_name : Option JVal := none
  file_path : Option JVal := none
  path : Option JVal := none
  storage_path : Option JVal := none
  other : List (String × JVal) := []

/-- Stage 1 of the normalizer: if score_json is a (truthy) string, parse
it as JSON into metrics (undefined on parse failure); else if score_json
is a (truthy) object value, alias metrics to it unless metrics is already
set (nullish coalescing). -/
def stage1 (c : SubRec) : SubRec :=
  match c.score_json with
  | some v =>
    if truthy v && isStringV v then
      match v with
      | .str s =>
        match parseJson s with
        | some m => { c with metrics := some m }
        | none => { c with metrics := none }
      | _ => c
    else if truthy v && isObjectTypeof v then
      { c with metrics := some (jsNullish c.metrics v) }
    else c
  | none => c

/-- Stage 2 of the normalizer: if metrics is still a JSON string, parse
it; a parse error is ignored and leaves the string in place. -/
def stage2 (c : SubRec) : SubRec :=
  match c.metrics with
  | some (.str s) =>
    match parseJson s with
    | some m => { c with metrics := some m }
    | none => c
  | _ => c

/-- The five promoted metric keys, in the order the normalizer visits
them. -/
def metricKeys : List String := ["f1", "precision", "recall", "accuracy", "auc"]

/-- Read the top-level field named by one of the five metric keys. -/
def getNamed (c : SubRec) (k : String) : Option JVal :=
  if k = "f1" then c.f1
  else if k = "precision" then c.precision
  else if k = "recall" then c.«recall»
  else if k = "accuracy" then c.accuracy
  else if k = "auc" then c.auc
  else none

/-- Write the top-level field named by one of the five metric keys. -/
def setNamed (c : SubRec) (k : String) (v : Option JVal) : SubRec :=
  if k = "f1" then { c with f1 := v }
  else if k = "precision" then { c with precision := v }
  else if k = "recall" then { c with «recall» := v }
  else if k = "accuracy" then { c with accuracy := v }
  else if k = "auc" then { c with auc := v }
  else c

/-- One step of the direct-key promotion loop: fill the top-level field
from metrics[key] when the field is undefined and the metrics entry is
defined. -/
def promoteStep (m : JVal) (c : SubRec) (k : String) : SubRec :=
  if (getNamed c k).isNone && (jsGet m k).isSome then setNamed c k (jsGet m k) else c

/-- Promotion of the direct metric keys (the first forEach of stage 3). -/
def promoteDirect (c : SubRec) (m : JVal) : SubRec :=
  metricKeys.foldl (promoteStep m) c

/-- The keys of an object value (Object.keys). -/
def keysOf : JVal → List String
  | .obj fs => fs.map (fun p => p.1)
  | _ => []

/-- One step of the results-key promotion loop: fill a still-undefined
metric field from the results entry. -/
def resStep (res : JVal) (c : SubRec) (mk : String) : SubRec :=
  if metricKeys.contains mk && (getNamed c mk).isNone then setNamed c mk (jsGet res mk) else c

/-- Promotion from metrics.results: iterate the keys of the results
object (the second forEach of stage 3). -/
def promoteResults (c : SubRec) (res : JVal) : SubRec :=
  (keysOf res).foldl (resStep res) c

/-- Stage 3 of the normalizer: when metrics is a truthy object value,
promote direct keys, then keys nested under metrics.results. -/
def stage3 (c : SubRec) : SubRec :=
  match c.metrics with
  | some m =>
    if truthy m && isObjectTypeof m then
      match jsGet m ("results") with
      | some res =>
        if truthy res && isObjectTypeof res then promoteResults (promoteDirect c m) res
        else promoteDirect c m
      | none => promoteDirect c m
    else c
  | none => c

/-- Stage 4 of the normalizer: accuracy defaults to auc; score defaults
to auc, then to accuracy. -/
def stage4 (c : SubRec) : SubRec :=
  let c := if c.accuracy.isNone && c.auc.isSome then { c with accuracy := c.auc } else c
  let c := if c.score.isNone && c.auc.isSome then { c with score := c.auc } else c
  if c.score.isNone && c.accuracy.isSome then { c with score := c.accuracy } else c

/-- Stage 5 of the normalizer: uploaded_at falls back to created_at, then
created, when not truthy. -/
def stage5 (c : SubRec) : SubRec :=
  if truthyO c.uploaded_at then c
  else if truthyO c.created_at then { c with uploaded_at := c.created_at }
  else if truthyO c.created then { c with uploaded_at := c.created }
  else c

/-- Last path segment: split on "/" and take the last piece, then the
same with backslashes. -/
def lastSeg (s : String) : String :=
  (((s.splitOn ("/")).getLastD ("")).splitOn ("\\")).getLastD ("")

/-- Stage 6 of the normalizer: filename derived from
file_name || file_path || path || storage_path, last path segment. -/
def stage6 (c : SubRec) : SubRec :=
  if truthyO c.filename then c
  else
    match jsOr (jsOr (jsOr c.file_name c.file_path) c.path) c.storage_path with
    | some f => if truthy f then { c with filename := some (.str (lastSeg (jsToString f))) } else c
    | none => c

/-- The submissions normalizer of the Submissions view (loadAll), as the
composition of its six stages in source order. -/
def normalizeSub (c : SubRec) : SubRec :=
  stage6 (stage5 (stage4 (stage3 (stage2 (stage1 c)))))

/-- The five promoted metric fields of a record, in spec order. -/
def metricsOf (c : SubRec) :
    Option JVal × Option JVal × Option JVal × Option JVal × Option JVal :=
  (c.f1, c.precision, c.«recall», c.accuracy, c.auc)

/-!
List unwrapping.  The Submissions view computes
sJson.items ?? sJson.results ?? sJson.data ?? sJson ?? [] and keeps it
only when it is an array; the Datasets view computes
json.items ?? json.results ?? json.data ?? json and then result || []. -/

/-- The unwrapped list value of the Submissions view (loadAll):
items, then results, then data, then the payload itself, then []. -/
def sItemsVal (j : JVal) : JVal :=
  jsNullish (jsGet j ("items"))
    (jsNullish (jsGet j ("results"))
      (jsNullish (jsGet j ("data"))
        (match j with
         | .null => .arr []
         | v => v)))

/-- The extracted submission list: the unwrapped value when it is an
array, else the empty list (Array.isArray guard). -/
def subListOf (j : JVal) : List JVal :=
  match sItemsVal j with
  | .arr xs => xs
  | _ => []

/-- The unwrapped result value of the Datasets view (load):
items, then results, then data, then the payload itself. -/
def dsResultsVal (j : JVal) : JVal :=
  jsNullish (jsGet j ("items"))
    (jsNullish (jsGet j ("results"))
      (jsNullish (jsGet j ("data")) j))

/-- The Datasets view stores results || [] into its items state. -/
def dsItemsVal (j : JVal) : JVal :=
  if truthy (dsResultsVal j) then dsResultsVal j else .arr []

/-!
The Datasets view stats normalizer (getStats) and the Total cell. -/

/-- A dataset record as read by getStats; only the fields the function
touches are modelled. -/
structure DsRec where
  id : Option JVal := none
  stats_json : Option JVal := none
  stats : Option JVal := none
  stats_raw : Option JVal := none

/-- A truthy property of object type (the guard d.f && typeof d.f ===
"object"). -/
def isTruthyObjField (o : Option JVal) : Bool :=
  match o with
  | some v => truthy v && isObjectTypeof v
  | none => false

/-- A truthy property of string type (the guard d.f && typeof d.f ===
"string"). -/
def isTruthyStrField (o : Option JVal) : Bool :=
  match o with
  | some v => truthy v && isStringV v
  | none => false

/-- The stats_raw fallback of getStats: parse a truthy string stats_raw,
otherwise (or on parse error) return null. -/
def getStatsRaw (d : DsRec) : JVal :=
  if isTruthyStrField d.stats_raw then
    match d.stats_raw with
    | some (.str s) =>
      match parseJson s with
      | some v => v
      | none => .null
    | _ => .null
  else .null

/-- getStats of the Datasets view: stats_json when a truthy object, else
stats when a truthy object, else stats parsed when a truthy string (parse
errors fall through), else stats_raw parsed, else null.  A missing record
also yields null. -/
def getStats (od : Option DsRec) : JVal :=
  match od with
  | none => .null
  | some d =>
    if isTruthyObjField d.stats_json then jsNullish d.stats_json .null
    else if isTruthyObjField d.stats then jsNullish d.stats .null
    else if isTruthyStrField d.stats then
      match d.stats with
      | some (.str s) =>
        match parseJson s with
        | some v => v
        | none => getStatsRaw d
      | _ => getStatsRaw d
    else getStatsRaw d

/-- The value shown in the Total cell:
stats.total_rows ?? stats.total_samples ?? stats.total ?? 0. -/
def totalShown (st : JVal) : JVal :=
  jsNullish (jsGet st ("total_rows"))
    (jsNullish (jsGet st ("total_samples"))
      (jsNullish (jsGet st ("total")) (.num 0)))

/-- The rendered Total text for a dataset record: the stats block is
rendered only when getStats is truthy. -/
def renderTotal (d : DsRec) : Option String :=
  let st := getStats (some d)
  if truthy st then some (jsToString (totalShown st)) else none

/-!
Number formatting and the metric cells of the two Submissions views. -/

/-- Left-pad a string with zeros to the given length. -/
def padZeros (s : String) (d : Nat) : String :=
  if d ≤ s.length then s else ⟨List.replicate (d - s.length) '0'⟩ ++ s

/-- Number.prototype.toFixed with d digits (round half away from zero;
the doubles of the scenarios under verification format identically).  The
rounded scaled magnitude is computed on the numerator and denominator
with integer arithmetic: floor(|q| * 10^d + 1/2). -/
def toFixed (d : Nat) (q : ℚ) : String :=
  let n : Nat := (2 * q.num.natAbs * 10 ^ d + q.den) / (2 * q.den)
  let p : Nat := 10 ^ d
  let sign := if q.num < 0 ∧ n ≠ 0 then "-" else ""
  sign ++ toString (n / p) ++ (if d = 0 then "" else "." ++ padZeros (toString (n % p)) d)

/-- A metric cell of the legacy Submissions view: the block renders only
when s.evaluated and s.score_json are truthy, and each cell shows
score_json[KEY].toFixed(4), with an em dash when absent or not a
number. -/
def scoreJsonCell (s : SubRec) (key : String) : Option String :=
  if truthyO s.evaluated && truthyO s.score_json then
    some (match s.score_json with
      | some sj =>
        match jsGet sj key with
        | some (.num q) => toFixed 4 q
        | _ => "—"
      | none => "—")
  else none

/-- A metric cell of the normalizing Submissions view:
Number(v).toFixed(3) when the field is defined, an em dash otherwise
(Number() coercion of a non-numeric defined value is not exercised by the
claims and is rendered as NaN). -/
def metricCell (v : Option JVal) : String :=
  match v with
  | none => "—"
  | some (.num q) => toFixed 3 q
  | some _ => "NaN"

/-!
The session store (auth.jsx) and the requests of the Dashboard and
Submissions views. -/

/-- An outbound HTTP request: URL and headers. -/
structure Req where
  url : String
  headers : List (String × String)

/-- The authHeader value of the session store: a Bearer Authorization
header when a credential is held, empty otherwise. -/
def authHeader (token : String) : List (String × String) :=
  if token ≠ "" then [("Authorization", "Bearer " ++ token)] else []

/-- The session store state: credential, profile, and the persisted
credential in durable client storage (localStorage). -/
structure AuthState where
  token : String
  user : Option JVal
  storedToken : Option String

/-- logout: clear the credential, the profile and the persisted
credential. -/
def logout (_st : AuthState) : AuthState :=
  { token := "", user := none, storedToken := none }

/-- The profile fetch issued by the session store effect when a
credential is held (GET /users/me with the Bearer header). -/
def profileFetchReq (api : String) (st : AuthState) : Option Req :=
  if st.token ≠ "" then
    some { url := api ++ "/users/me", headers := [("Authorization", "Bearer " ++ st.token)] }
  else none

/-- The session store state transition on the profile fetch result:
success stores the profile; any failure clears profile, credential and
persisted credential. -/
def onProfileResult (st : AuthState) (res : Except Unit JVal) : AuthState :=
  match res with
  | .ok u => { st with user := some u }
  | .error _ => { token := "", user := none, storedToken := none }

/-- The two requests issued by the Dashboard mount effect: the dataset
list without headers, the submission list with authHeader. -/
def dashboardMountReqs (api token : String) : List Req :=
  [ { url := api ++ "/datasets/", headers := [] },
    { url := api ++ "/submissions/", headers := authHeader token } ]

/-- The two requests issued by the Submissions view load: the dataset
list without headers, the submission list with authHeader. -/
def submissionsLoadReqs (api token : String) (page : Nat) (datasetId : String) : List Req :=
  [ { url := api ++ "/datasets/", headers := [] },
    { url := api ++ "/submissions/?page=" ++ toString page ++ "&page_size=20"
        ++ (if datasetId ≠ "" then "&dataset_id=" ++ datasetId else ""),
      headers := authHeader token } ]

/-!
The dataset upload form handler of the Datasets view. -/

/-- A chosen file in a form (only its name is relevant here). -/
structure UFile where
  fname : String

/-- The dataset upload form state. -/
structure DsForm where
  name : String
  desc : String
  dataFile : Option UFile
  gtFile : Option UFile
  msg : String

/-- The dataset upload handler: with no ground-truth file it sets the
message and returns without a request; otherwise it posts the multipart
form and on success clears the chosen files (the backend detail message
is surfaced on failure). -/
def datasetUpload (api : String) (hdrs : List (String × String)) (st : DsForm)
    (resp : Except String Unit) : DsForm × Option Req :=
  match st.gtFile with
  | none => ({ st with msg := "Ground truth CSV required" }, none)
  | some _ =>
    let r : Req := { url := api ++ "/datasets/", headers := hdrs }
    match resp with
    | .ok _ => ({ st with msg := "Uploaded", dataFile := none, gtFile := none }, some r)
    | .error d => ({ st with msg := d }, some r)

/-!
The Datasets view timestamp formatter toVietnameseTime.  The browser
built-ins Date and toLocaleString are modelled: an ISO timestamp with an
explicit offset (Z or +-hh:mm) is parsed to epoch seconds; rendering is
the instant shifted to Asia/Ho_Chi_Minh (UTC+7, no DST) in a fixed
two-digit vi-VN layout.  A timestamp without an offset is the
environment-dependent case the source works around by appending Z; it is
modelled as invalid. -/

/-- The decimal digit character for k in 0..9. -/
def digitChar (k : Nat) : Char :=
  match k with
  | 0 => '0'
  | 1 => '1'
  | 2 => '2'
  | 3 => '3'
  | 4 => '4'
  | 5 => '5'
  | 6 => '6'
  | 7 => '7'
  | 8 => '8'
  | _ => '9'

/-- Two-digit zero-padded decimal. -/
def pad2 (n : Nat) : String :=
  ⟨[digitChar (n / 10 % 10), digitChar (n % 10)]⟩

/-- Four-digit zero-padded decimal. -/
def pad4 (n : Nat) : String :=
  ⟨[digitChar (n / 1000 % 10), digitChar (n / 100 % 10), digitChar (n / 10 % 10), digitChar (n % 10)]⟩

/-- The canonical timestamp text YYYY-MM-DDTHH:MM:SS for the given
components. -/
def fmtBasicTS (y mo d h mi s : Nat) : String :=
  pad4 y ++ "-" ++ pad2 mo ++ "-" ++ pad2 d ++ "T" ++ pad2 h ++ ":" ++ pad2 mi ++ ":" ++ pad2 s

/-- The regex test of toVietnameseTime: exactly
digit digit digit digit - digit digit - digit digit T digit digit : digit
digit : digit digit, nothing else. -/
def tsNoTZ (s : String) : Bool :=
  match s.data with
  | [a1, a2, a3, a4, b1, c1, c2, b2, e1, e2, b3, f1, f2, b4, g1, g2, b5, k1, k2] =>
    a1.isDigit && a2.isDigit && a3.isDigit && a4.isDigit && (b1 == '-')
      && c1.isDigit && c2.isDigit && (b2 == '-') && e1.isDigit && e2.isDigit
      && (b3 == 'T') && f1.isDigit && f2.isDigit && (b4 == ':') && g1.isDigit && g2.isDigit
      && (b5 == ':') && k1.isDigit && k2.isDigit
  | _ => false

/-- Days since 1970-01-01 of a civil date (proleptic Gregorian,
truncating integer division as in the standard civil-from-days
algorithm). -/
def daysFromCivil (y m d : ℤ) : ℤ :=
  let y2 := if m ≤ 2 then y - 1 else y
  let era := (if 0 ≤ y2 then y2 else y2 - 399) / 400
  let yoe := y2 - era * 400
  let mp := (m + 9) % 12
  let doy := (153 * mp + 2) / 5 + d - 1
  let doe := yoe * 365 + yoe / 4 - yoe / 100 + doy
  era * 146097 + doe - 719468

/-- Civil date of a day count since 1970-01-01 (inverse of
daysFromCivil). -/
def civilFromDays (z0 : ℤ) : ℤ × ℤ × ℤ :=
  let z := z0 + 719468
  let era := (if 0 ≤ z then z else z - 146096) / 146097
  let doe := z - era * 146097
  let yoe := (doe - doe / 1460 + doe / 36524 - doe / 146096) / 365
  let y := yoe + era * 400
  let doy := doe - (365 * yoe + yoe / 4 - yoe / 100)
  let mp := (5 * doy + 2) / 153
  let d := doy - (153 * mp + 2) / 5 + 1
  let m := mp + (if mp < 10 then 3 else -9)
  (y + (if m ≤ 2 then 1 else 0), m, d)

/-- Numeric value of a digit character. -/
def dVal (c : Char) : Nat := c.toNat - 48

/-- Parse an ISO timestamp with an explicit offset (trailing Z or
+-hh:mm) to epoch seconds; timestamps without an offset are
environment-dependent in browsers and modelled as unparseable. -/
def parseTS (s : String) : Option ℤ :=
  match s.data with
  | y1 :: y2 :: y3 :: y4 :: '-' :: mo1 :: mo2 :: '-' :: d1 :: d2 :: 'T'
      :: h1 :: h2 :: ':' :: mi1 :: mi2 :: ':' :: s1 :: s2 :: restc =>
    if [y1, y2, y3, y4, mo1, mo2, d1, d2, h1, h2, mi1, mi2, s1, s2].all Char.isDigit then
      let y := dVal y1 * 1000 + dVal y2 * 100 + dVal y3 * 10 + dVal y4
      let mo := dVal mo1 * 10 + dVal mo2
      let d := dVal d1 * 10 + dVal d2
      let h := dVal h1 * 10 + dVal h2
      let mi := dVal mi1 * 10 + dVal mi2
      let sec := dVal s1 * 10 + dVal s2
      let base : ℤ := daysFromCivil y mo d * 86400 + h * 3600 + mi * 60 + sec
      match restc with
      | ['Z'] => some base
      | ['+', o1, o2, ':', o3, o4] =>
        if [o1, o2, o3, o4].all Char.isDigit then
          some (base - ((dVal o1 * 10 + dVal o2) * 3600 + (dVal o3 * 10 + dVal o4) * 60 : ℕ))
        else none
      | ['-', o1, o2, ':', o3, o4] =>
        if [o1, o2, o3, o4].all Char.isDigit then
          some (base + ((dVal o1 * 10 + dVal o2) * 3600 + (dVal o3 * 10 + dVal o4) * 60 : ℕ))
        else none
      | _ => none
    else none
  | _ => none

/-- Render an epoch instant in Asia/Ho_Chi_Minh (UTC+7) in the fixed
two-digit vi-VN layout HH:MM:SS DD/MM/YYYY (a model of
toLocaleString("vi-VN", ...timeZone Asia/Ho_Chi_Minh)). -/
def vnFormatEpoch (t : ℤ) : String :=
  let loc := t + 7 * 3600
  let days := Int.fdiv loc 86400
  let secs := loc - days * 86400
  let c := civilFromDays days
  let h := secs / 3600
  let mi := secs % 3600 / 60
  let s := secs % 60
  pad2 h.toNat ++ ":" ++ pad2 mi.toNat ++ ":" ++ pad2 s.toNat ++ " "
    ++ pad2 c.2.2.toNat ++ "/" ++ pad2 c.2.1.toNat ++ "/" ++ pad4 c.1.toNat

/-- The browser new Date(s).toLocaleString("vi-VN", ...) pipeline:
Invalid Date on unparseable input. -/
def renderDate (s : String) : String :=
  match parseTS s with
  | some t => vnFormatEpoch t
  | none => "Invalid Date"

/-- toVietnameseTime of the Datasets view: empty input renders empty; a
timestamp of the exact no-offset shape gets Z appended before parsing;
anything else is passed to Date unchanged. -/
def toVietnameseTime (dateStr : Option String) : String :=
  match dateStr with
  | none => ""
  | some ds =>
    if ds == "" then ""
    else renderDate (if tsNoTZ ds then ds ++ "Z" else ds)

/-!
The Notebook view iframe URL. -/

/-- A character left unescaped by encodeURIComponent. -/
def uriUnreserved (c : Char) : Bool :=
  c.isAlphanum || c == '-' || c == '_' || c == '.' || c == '!' || c == '~'
    || c == '*' || c == Char.ofNat 39 || c == '(' || c == ')'

/-- UTF-8 bytes of a character. -/
def utf8Bytes (c : Char) : List Nat :=
  let n := c.toNat
  if n < 128 then [n]
  else if n < 2048 then [192 + n / 64, 128 + n % 64]
  else if n < 65536 then [224 + n / 4096, 128 + n / 64 % 64, 128 + n % 64]
  else [240 + n / 262144, 128 + n / 4096 % 64, 128 + n / 64 % 64, 128 + n % 64]

/-- Uppercase hexadecimal digit. -/
def hexChar (k : Nat) : Char :=
  if k < 10 then digitChar k
  else match k with
  | 10 => 'A'
  | 11 => 'B'
  | 12 => 'C'
  | 13 => 'D'
  | 14 => 'E'
  | _ => 'F'

/-- Percent-encoding of one byte. -/
def pctByte (b : Nat) : String :=
  ⟨['%', hexChar (b / 16 % 16), hexChar (b % 16)]⟩

/-- Percent-encoding of one character (all of its UTF-8 bytes). -/
def pctChar (c : Char) : String :=
  String.join ((utf8Bytes c).map pctByte)

/-- encodeURIComponent over a character list. -/
def encodeChars : List Char → String
  | [] => ""
  | c :: cs => (if uriUnreserved c then (⟨[c]⟩ : String) else pctChar c) ++ encodeChars cs

/-- The encodeURIComponent of the browser. -/
def encodeURIComponent (s : String) : String :=
  encodeChars s.data

/-- The iframe URL of the Notebook view:
/lite/index.html?token=<encoded credential>&dataset_id=. -/
def notebookSrc (token : String) : String :=
  "/lite/index.html?token=" ++ encodeURIComponent token ++ "&dataset_id="

/-- The input after the first occurrence of the separator. -/
def afterChar (sep : Char) : List Char → Option (List Char)
  | [] => none
  | c :: cs => if c == sep then some cs else afterChar sep cs

/-- Split a character list on every occurrence of the separator. -/
def splitOnCharL (sep : Char) : List Char → List (List Char)
  | [] => [[]]
  | c :: cs =>
    let r := splitOnCharL sep cs
    if c == sep then [] :: r
    else
      match r with
      | h :: t => (c :: h) :: t
      | [] => [[c]]

/-- One query parameter: key before the first =, value after it. -/
def paramOf (kv : List Char) : String × String :=
  match afterChar '=' kv with
  | some v => (⟨kv.takeWhile (fun c => !(c == '='))⟩, ⟨v⟩)
  | none => (⟨kv⟩, "")

/-- The query parameters of a URL: everything after the first ?, split
on &, each split at the first =. -/
def queryParams (url : String) : List (String × String) :=
  match afterChar '?' url.data with
  | some q => (splitOnCharL '&' q).map paramOf
  | none => []
/-- Agreement of two submission records on every field the metric
promotion never writes. -/
def eqOther (a b : SubRec) : Prop :=
  a.score_json = b.score_json ∧ a.metrics = b.metrics ∧ a.score = b.score
  ∧ a.evaluated = b.evaluated ∧ a.uploaded_at = b.uploaded_at ∧ a.created_at = b.created_at
  ∧ a.created = b.created ∧ a.filename = b.filename ∧ a.file_name = b.file_name
  ∧ a.file_path = b.file_path ∧ a.path = b.path ∧ a.storage_path = b.storage_path
  ∧ a.other = b.other

lemma eqOther_refl (a : SubRec) : eqOther a a :=
  ⟨rfl, rfl, rfl, rfl, rfl, rfl, rfl, rfl, rfl, rfl, rfl, rfl, rfl⟩

lemma eqOther_trans {a b c : SubRec} (h1 : eqOther a b) (h2 : eqOther b c) : eqOther a c := by
  obtain ⟨a1, a2, a3, a4, a5, a6, a7, a8, a9, a10, a11, a12, a13⟩ := h1
  obtain ⟨b1, b2, b3, b4, b5, b6, b7, b8, b9, b10, b11, b12, b13⟩ := h2
  exact ⟨a1.trans b1, a2.trans b2, a3.trans b3, a4.trans b4, a5.trans b5, a6.trans b6,
    a7.trans b7, a8.trans b8, a9.trans b9, a10.trans b10, a11.trans b11, a12.trans b12,
    a13.trans b13⟩

lemma setNamed_eqOther (c : SubRec) (k : String) (v : Option JVal) :
    eqOther (setNamed c k v) c := by
  unfold setNamed
  split_ifs <;> exact ⟨rfl, rfl, rfl, rfl, rfl, rfl, rfl, rfl, rfl, rfl, rfl, rfl, rfl⟩

lemma promoteStep_eqOther (m : JVal) (c : SubRec) (k : String) :
    eqOther (promoteStep m c k) c := by
  unfold promoteStep
  split
  · exact setNamed_eqOther c k _
  · exact eqOther_refl c

lemma resStep_eqOther (res : JVal) (c : SubRec) (k : String) :
    eqOther (resStep res c k) c := by
  unfold resStep
  split
  · exact setNamed_eqOther c k _
  · exact eqOther_refl c

lemma foldPromote_eqOther (m : JVal) (ks : List String) (c : SubRec) :
    eqOther (ks.foldl (promoteStep m) c) c := by
  induction ks generalizing c with
  | nil => exact eqOther_refl c
  | cons k ks ih =>
    rw [List.foldl_cons]
    exact eqOther_trans (ih (promoteStep m c k)) (promoteStep_eqOther m c k)

lemma foldRes_eqOther (res : JVal) (ks : List String) (c : SubRec) :
    eqOther (ks.foldl (resStep res) c) c := by
  induction ks generalizing c with
  | nil => exact eqOther_refl c
  | cons k ks ih =>
    rw [List.foldl_cons]
    exact eqOther_trans (ih (resStep res c k)) (resStep_eqOther res c k)

lemma promoteDirect_eqOther (c : SubRec) (m : JVal) : eqOther (promoteDirect c m) c :=
  foldPromote_eqOther m metricKeys c

lemma promoteResults_eqOther (c : SubRec) (res : JVal) : eqOther (promoteResults c res) c :=
  foldRes_eqOther res (keysOf res) c

lemma stage3_eqOther (c : SubRec) : eqOther (stage3 c) c := by
  unfold stage3
  rcases hmt : c.metrics with _ | m
  · exact eqOther_refl c
  · dsimp only
    by_cases hg : (truthy m && isObjectTypeof m) = true
    · rw [if_pos hg]
      rcases hres : jsGet m ("results") with _ | res
      · exact promoteDirect_eqOther c m
      · dsimp only
        by_cases hr : (truthy res && isObjectTypeof res) = true
        · rw [if_pos hr]
          exact eqOther_trans (promoteResults_eqOther (promoteDirect c m) res) (promoteDirect_eqOther c m)
        · rw [if_neg hr]
          exact promoteDirect_eqOther c m
    · rw [if_neg hg]
      exact eqOther_refl c

/-- The fields of a record other than metrics, as one tuple (stages 1 and
2 write only metrics). -/
def fieldsExceptMetrics (a : SubRec) :=
  (a.score_json, a.f1, a.precision, a.«recall», a.accuracy, a.auc, a.score, a.evaluated,
   a.uploaded_at, a.created_at, a.created, a.filename, a.file_name, a.file_path, a.path,
   a.storage_path, a.other)

/-- The metrics value produced by stage 1, as a function of score_json
and metrics. -/
def stage1m (sj m : Option JVal) : Option JVal :=
  match sj with
  | some (.str s) => if s = "" then m else parseJson s
  | some (.obj fs) => some (jsNullish m (.obj fs))
  | some (.arr xs) => some (jsNullish m (.arr xs))
  | _ => m

/-- The metrics value produced by stage 2, as a function of the incoming
metrics. -/
def metricsParse1 (m : Option JVal) : Option JVal :=
  match m with
  | some (.str t) =>
    match parseJson t with
    | some v => some v
    | none => some (.str t)
  | _ => m

/-- The metrics value after stages 1 and 2, as a function of score_json
and metrics. -/
def stage12m (sj m : Option JVal) : Option JVal :=
  metricsParse1 (stage1m sj m)

lemma stage1_keeps (c : SubRec) : fieldsExceptMetrics (stage1 c) = fieldsExceptMetrics c := by
  unfold stage1
  rcases hsj : c.score_json with _ | v
  · rfl
  · cases v <;> dsimp only
    case null => rfl
    case bool b => simp [truthy, isStringV, isObjectTypeof]
    case num q => simp [truthy, isStringV, isObjectTypeof]
    case str s =>
      by_cases hs : s = ""
      · subst hs; simp [truthy, isStringV, isObjectTypeof]
      · rw [if_pos (by simp [truthy, isStringV, hs])]
        rcases hp : parseJson s with _ | m <;> simp [fieldsExceptMetrics, hsj]
    case arr xs => simp [truthy, isStringV, isObjectTypeof, fieldsExceptMetrics, hsj]
    case obj fs => simp [truthy, isStringV, isObjectTypeof, fieldsExceptMetrics, hsj]

lemma stage1_metrics (c : SubRec) : (stage1 c).metrics = stage1m c.score_json c.metrics := by
  unfold stage1 stage1m
  rcases hsj : c.score_json with _ | v
  · rfl
  · cases v <;> dsimp only
    case null => rfl
    case bool b => simp [truthy, isStringV, isObjectTypeof]
    case num q => simp [truthy, isStringV, isObjectTypeof]
    case str s =>
      by_cases hs : s = ""
      · subst hs; simp [truthy, isStringV, isObjectTypeof]
      · rw [if_pos (by simp [truthy, isStringV, hs]), if_neg hs]
        rcases hp : parseJson s with _ | m <;> simp [hp]
    case arr xs => simp [truthy, isStringV, isObjectTypeof]
    case obj fs => simp [truthy, isStringV, isObjectTypeof]

lemma stage2_keeps (c : SubRec) : fieldsExceptMetrics (stage2 c) = fieldsExceptMetrics c := by
  unfold stage2
  rcases hmt : c.metrics with _ | v
  · rfl
  · cases v <;> dsimp only
    case str s => rcases hp : parseJson s with _ | m <;> simp [fieldsExceptMetrics]

lemma stage2_metrics (c : SubRec) : (stage2 c).metrics = metricsParse1 c.metrics := by
  unfold stage2 metricsParse1
  rcases hmt : c.metrics with _ | v
  · exact hmt
  · cases v <;> dsimp only
    case str s => rcases hp : parseJson s with _ | m <;> simp [hp, hmt]
    all_goals exact hmt

lemma stage12_metrics (c : SubRec) :
    (stage2 (stage1 c)).metrics = stage12m c.score_json c.metrics := by
  rw [stage2_metrics, stage1_metrics, stage12m]
lemma getNamed_setNamed_self (c : SubRec) (k : String) (v : Option JVal) (hk : k ∈ metricKeys) :
    getNamed (setNamed c k v) k = v := by
  simp only [metricKeys, List.mem_cons, List.not_mem_nil, or_false] at hk
  rcases hk with rfl | rfl | rfl | rfl | rfl <;> simp [getNamed, setNamed]

lemma getNamed_setNamed_ne (c : SubRec) (k : String) (v : Option JVal) (n : String) (hne : n ≠ k) :
    getNamed (setNamed c k v) n = getNamed c n := by
  by_cases h1 : k = "f1"
  · subst h1; simp [getNamed, setNamed, hne]
  by_cases h2 : k = "precision"
  · subst h2; simp [getNamed, setNamed, hne]
  by_cases h3 : k = "recall"
  · subst h3; simp [getNamed, setNamed, hne]
  by_cases h4 : k = "accuracy"
  · subst h4; simp [getNamed, setNamed, hne]
  by_cases h5 : k = "auc"
  · subst h5; simp [getNamed, setNamed, hne]
  simp [setNamed, h1, h2, h3, h4, h5]

lemma getNamed_promoteStep_self (m : JVal) (c : SubRec) (k : String) (hk : k ∈ metricKeys) :
    getNamed (promoteStep m c k) k = (getNamed c k).or (jsGet m k) := by
  unfold promoteStep
  rcases hc : getNamed c k with _ | w
  · rcases hjm : jsGet m k with _ | u
    · simp [hc, hjm, Option.or]
    · simp [hc, hjm, Option.or, getNamed_setNamed_self c k _ hk]
  · simp [hc, Option.or]

lemma getNamed_promoteStep_ne (m : JVal) (c : SubRec) (k n : String) (hne : n ≠ k) :
    getNamed (promoteStep m c k) n = getNamed c n := by
  unfold promoteStep
  split
  · exact getNamed_setNamed_ne c k _ n hne
  · rfl

lemma getNamed_resStep_self (res : JVal) (c : SubRec) (k : String) (hk : k ∈ metricKeys) :
    getNamed (resStep res c k) k = (getNamed c k).or (jsGet res k) := by
  unfold resStep
  rcases hc : getNamed c k with _ | w
  · simp [hc, hk, Option.or, getNamed_setNamed_self c k _ hk]
  · simp [hc, hk, Option.or]

lemma getNamed_resStep_ne (res : JVal) (c : SubRec) (k n : String) (hne : n ≠ k) :
    getNamed (resStep res c k) n = getNamed c n := by
  unfold resStep
  split
  · exact getNamed_setNamed_ne c k _ n hne
  · rfl

lemma getNamed_foldPromote (m : JVal) (ks : List String) (c : SubRec) (n : String)
    (hn : n ∈ metricKeys) :
    getNamed (ks.foldl (promoteStep m) c) n =
      (getNamed c n).or (if n ∈ ks then jsGet m n else none) := by
  induction ks generalizing c with
  | nil => simp [Option.or_none]
  | cons k ks ih =>
    rw [List.foldl_cons, ih]
    by_cases hnk : n = k
    · subst hnk
      rw [getNamed_promoteStep_self m c n hn]
      rcases getNamed c n with _ | w <;> rcases hj : jsGet m n with _ | u <;>
        by_cases hmem : n ∈ ks <;> simp [Option.or, hj, hmem]
    · rw [getNamed_promoteStep_ne m c k n hnk]
      simp [List.mem_cons, hnk]

lemma getNamed_foldRes (res : JVal) (ks : List String) (c : SubRec) (n : String)
    (hn : n ∈ metricKeys) :
    getNamed (ks.foldl (resStep res) c) n =
      (getNamed c n).or (if n ∈ ks then jsGet res n else none) := by
  induction ks generalizing c with
  | nil => simp [Option.or_none]
  | cons k ks ih =>
    rw [List.foldl_cons, ih]
    by_cases hnk : n = k
    · subst hnk
      rw [getNamed_resStep_self res c n hn]
      rcases getNamed c n with _ | w <;> rcases hj : jsGet res n with _ | u <;>
        by_cases hmem : n ∈ ks <;> simp [Option.or, hj, hmem]
    · rw [getNamed_resStep_ne res c k n hnk]
      simp [List.mem_cons, hnk]

lemma getNamed_promoteDirect (c : SubRec) (m : JVal) (n : String) (hn : n ∈ metricKeys) :
    getNamed (promoteDirect c m) n = (getNamed c n).or (jsGet m n) := by
  unfold promoteDirect
  rw [getNamed_foldPromote m metricKeys c n hn, if_pos hn]

/-- The value contributed to field n by the metrics.results promotion. -/
def resultsLookup (m : JVal) (n : String) : Option JVal :=
  match jsGet m ("results") with
  | some res =>
    if truthy res && isObjectTypeof res then (if n ∈ keysOf res then jsGet res n else none)
    else none
  | none => none

lemma getNamed_stage3 (c : SubRec) (n : String) (hn : n ∈ metricKeys) :
    getNamed (stage3 c) n =
      match c.metrics with
      | some m =>
        if truthy m && isObjectTypeof m then
          ((getNamed c n).or (jsGet m n)).or (resultsLookup m n)
        else getNamed c n
      | none => getNamed c n := by
  unfold stage3 resultsLookup
  rcases hmt : c.metrics with _ | m
  · rfl
  · dsimp only
    by_cases hg : (truthy m && isObjectTypeof m) = true
    · rw [if_pos hg, if_pos hg]
      rcases hres : jsGet m ("results") with _ | res
      · rw [getNamed_promoteDirect c m n hn]
        cases ((getNamed c n).or (jsGet m n)) <;> rfl
      · dsimp only
        by_cases hr : (truthy res && isObjectTypeof res) = true
        · rw [if_pos hr, if_pos hr]
          unfold promoteResults
          rw [getNamed_foldRes res (keysOf res) (promoteDirect c m) n hn,
            getNamed_promoteDirect c m n hn]
        · rw [if_neg hr, if_neg hr]
          rw [getNamed_promoteDirect c m n hn]
          cases ((getNamed c n).or (jsGet m n)) <;> rfl
    · rw [if_neg hg, if_neg hg]
/-- The fields stage 4 never writes, as one tuple. -/
def fieldsExceptStage4 (a : SubRec) :=
  (a.score_json, a.metrics, a.f1, a.precision, a.«recall», a.auc, a.evaluated,
   a.uploaded_at, a.created_at, a.created, a.filename, a.file_name, a.file_path, a.path,
   a.storage_path, a.other)

lemma stage4_keeps (c : SubRec) : fieldsExceptStage4 (stage4 c) = fieldsExceptStage4 c := by
  unfold stage4
  dsimp only
  split_ifs <;> rfl

lemma stage4_accuracy (c : SubRec) : (stage4 c).accuracy = c.accuracy.or c.auc := by
  unfold stage4
  dsimp only
  rcases hacc : c.accuracy with _ | a <;> rcases hauc : c.auc with _ | u <;>
    split_ifs <;> simp_all [Option.or]

lemma stage4_score (c : SubRec) : (stage4 c).score = c.score.or (c.auc.or c.accuracy) := by
  unfold stage4
  dsimp only
  rcases hacc : c.accuracy with _ | a <;> rcases hauc : c.auc with _ | u <;>
    rcases hsc : c.score with _ | s <;> split_ifs <;> simp_all [Option.or]

/-- The fields stage 5 never writes, as one tuple. -/
def fieldsExceptUploaded (a : SubRec) :=
  (a.score_json, a.metrics, a.f1, a.precision, a.«recall», a.accuracy, a.auc, a.score,
   a.evaluated, a.created_at, a.created, a.filename, a.file_name, a.file_path, a.path,
   a.storage_path, a.other)

lemma stage5_keeps (c : SubRec) : fieldsExceptUploaded (stage5 c) = fieldsExceptUploaded c := by
  unfold stage5
  split_ifs <;> rfl

lemma stage5_uploaded (c : SubRec) :
    (stage5 c).uploaded_at =
      if truthyO c.uploaded_at then c.uploaded_at
      else if truthyO c.created_at then c.created_at
      else if truthyO c.created then c.created
      else c.uploaded_at := by
  unfold stage5
  split_ifs <;> rfl

/-- The fields stage 6 never writes, as one tuple. -/
def fieldsExceptFilename (a : SubRec) :=
  (a.score_json, a.metrics, a.f1, a.precision, a.«recall», a.accuracy, a.auc, a.score,
   a.evaluated, a.uploaded_at, a.created_at, a.created, a.file_name, a.file_path, a.path,
   a.storage_path, a.other)

lemma stage6_keeps (c : SubRec) : fieldsExceptFilename (stage6 c) = fieldsExceptFilename c := by
  unfold stage6
  split_ifs
  · rfl
  · split
    · split_ifs <;> rfl
    · rfl

lemma stage6_filename (c : SubRec) :
    (stage6 c).filename =
      if truthyO c.filename then c.filename
      else
        match jsOr (jsOr (jsOr c.file_name c.file_path) c.path) c.storage_path with
        | some f => if truthy f then some (.str (lastSeg (jsToString f))) else c.filename
        | none => c.filename := by
  unfold stage6
  split_ifs with h1
  · rfl
  · split
    · split_ifs <;> rfl
    · rfl
/-! Individual field-preservation facts, projected from the tuple lemmas. -/


lemma stage1_score_json (c : SubRec) : (stage1 c).score_json = c.score_json :=
  congrArg (fun t => t.1) (stage1_keeps c)

lemma stage1_f1 (c : SubRec) : (stage1 c).f1 = c.f1 :=
  congrArg (fun t => t.2.1) (stage1_keeps c)

lemma stage1_precision (c : SubRec) : (stage1 c).precision = c.precision :=
  congrArg (fun t => t.2.2.1) (stage1_keeps c)

lemma stage1_recall (c : SubRec) : (stage1 c).«recall» = c.«recall» :=
  congrArg (fun t => t.2.2.2.1) (stage1_keeps c)

lemma stage1_accuracy (c : SubRec) : (stage1 c).accuracy = c.accuracy :=
  congrArg (fun t => t.2.2.2.2.1) (stage1_keeps c)

lemma stage1_auc (c : SubRec) : (stage1 c).auc = c.auc :=
  congrArg (fun t => t.2.2.2.2.2.1) (stage1_keeps c)

lemma stage1_score (c : SubRec) : (stage1 c).score = c.score :=
  congrArg (fun t => t.2.2.2.2.2.2.1) (stage1_keeps c)

lemma stage1_evaluated (c : SubRec) : (stage1 c).evaluated = c.evaluated :=
  congrArg (fun t => t.2.2.2.2.2.2.2.1) (stage1_keeps c)

lemma stage1_uploaded_at (c : SubRec) : (stage1 c).uploaded_at = c.uploaded_at :=
  congrArg (fun t => t.2.2.2.2.2.2.2.2.1) (stage1_keeps c)

lemma stage1_created_at (c : SubRec) : (stage1 c).created_at = c.created_at :=
  congrArg (fun t => t.2.2.2.2.2.2.2.2.2.1) (stage1_keeps c)

lemma stage1_created (c : SubRec) : (stage1 c).created = c.created :=
  congrArg (fun t => t.2.2.2.2.2.2.2.2.2.2.1) (stage1_keeps c)

lemma stage1_filename (c : SubRec) : (stage1 c).filename = c.filename :=
  congrArg (fun t => t.2.2.2.2.2.2.2.2.2.2.2.1) (stage1_keeps c)

lemma stage1_file_name (c : SubRec) : (stage1 c).file_name = c.file_name :=
  congrArg (fun t => t.2.2.2.2.2.2.2.2.2.2.2.2.1) (stage1_keeps c)

lemma stage1_file_path (c : SubRec) : (stage1 c).file_path = c.file_path :=
  congrArg (fun t => t.2.2.2.2.2.2.2.2.2.2.2.2.2.1) (stage1_keeps c)

lemma stage1_path (c : SubRec) : (stage1 c).path = c.path :=
  congrArg (fun t => t.2.2.2.2.2.2.2.2.2.2.2.2.2.2.1) (stage1_keeps c)

lemma stage1_storage_path (c : SubRec) : (stage1 c).storage_path = c.storage_path :=
  congrArg (fun t => t.2.2.2.2.2.2.2.2.2.2.2.2.2.2.2.1) (stage1_keeps c)

lemma stage1_other (c : SubRec) : (stage1 c).other = c.other :=
  congrArg (fun t => t.2.2.2.2.2.2.2.2.2.2.2.2.2.2.2.2) (stage1_keeps c)

lemma stage2_score_json (c : SubRec) : (stage2 c).score_json = c.score_json :=
  congrArg (fun t => t.1) (stage2_keeps c)

lemma stage2_f1 (c : SubRec) : (stage2 c).f1 = c.f1 :=
  congrArg (fun t => t.2.1) (stage2_keeps c)

lemma stage2_precision (c : SubRec) : (stage2 c).precision = c.precision :=
  congrArg (fun t => t.2.2.1) (stage2_keeps c)

lemma stage2_recall (c : SubRec) : (stage2 c).«recall» = c.«recall» :=
  congrArg (fun t => t.2.2.2.1) (stage2_keeps c)

lemma stage2_accuracy (c : SubRec) : (stage2 c).accuracy = c.accuracy :=
  congrArg (fun t => t.2.2.2.2.1) (stage2_keeps c)

lemma stage2_auc (c : SubRec) : (stage2 c).auc = c.auc :=
  congrArg (fun t => t.2.2.2.2.2.1) (stage2_keeps c)

lemma stage2_score (c : SubRec) : (stage2 c).score = c.score :=
  congrArg (fun t => t.2.2.2.2.2.2.1) (stage2_keeps c)

lemma stage2_evaluated (c : SubRec) : (stage2 c).evaluated = c.evaluated :=
  congrArg (fun t => t.2.2.2.2.2.2.2.1) (stage2_keeps c)

lemma stage2_uploaded_at (c : SubRec) : (stage2 c).uploaded_at = c.uploaded_at :=
  congrArg (fun t => t.2.2.2.2.2.2.2.2.1) (stage2_keeps c)

lemma stage2_created_at (c : SubRec) : (stage2 c).created_at = c.created_at :=
  congrArg (fun t => t.2.2.2.2.2.2.2.2.2.1) (stage2_keeps c)

lemma stage2_created (c : SubRec) : (stage2 c).created = c.created :=
  congrArg (fun t => t.2.2.2.2.2.2.2.2.2.2.1) (stage2_keeps c)

lemma stage2_filename (c : SubRec) : (stage2 c).filename = c.filename :=
  congrArg (fun t => t.2.2.2.2.2.2.2.2.2.2.2.1) (stage2_keeps c)

lemma stage2_file_name (c : SubRec) : (stage2 c).file_name = c.file_name :=
  congrArg (fun t => t.2.2.2.2.2.2.2.2.2.2.2.2.1) (stage2_keeps c)

lemma stage2_file_path (c : SubRec) : (stage2 c).file_path = c.file_path :=
  congrArg (fun t => t.2.2.2.2.2.2.2.2.2.2.2.2.2.1) (stage2_keeps c)

lemma stage2_path (c : SubRec) : (stage2 c).path = c.path :=
  congrArg (fun t => t.2.2.2.2.2.2.2.2.2.2.2.2.2.2.1) (stage2_keeps c)

lemma stage2_storage_path (c : SubRec) : (stage2 c).storage_path = c.storage_path :=
  congrArg (fun t => t.2.2.2.2.2.2.2.2.2.2.2.2.2.2.2.1) (stage2_keeps c)

lemma stage2_other (c : SubRec) : (stage2 c).other = c.other :=
  congrArg (fun t => t.2.2.2.2.2.2.2.2.2.2.2.2.2.2.2.2) (stage2_keeps c)

lemma stage4_score_json (c : SubRec) : (stage4 c).score_json = c.score_json :=
  congrArg (fun t => t.1) (stage4_keeps c)

lemma stage4_metrics (c : SubRec) : (stage4 c).metrics = c.metrics :=
  congrArg (fun t => t.2.1) (stage4_keeps c)

lemma stage4_f1 (c : SubRec) : (stage4 c).f1 = c.f1 :=
  congrArg (fun t => t.2.2.1) (stage4_keeps c)

lemma stage4_precision (c : SubRec) : (stage4 c).precision = c.precision :=
  congrArg (fun t => t.2.2.2.1) (stage4_keeps c)

lemma stage4_recall (c : SubRec) : (stage4 c).«recall» = c.«recall» :=
  congrArg (fun t => t.2.2.2.2.1) (stage4_keeps c)

lemma stage4_auc (c : SubRec) : (stage4 c).auc = c.auc :=
  congrArg (fun t => t.2.2.2.2.2.1) (stage4_keeps c)

lemma stage4_evaluated (c : SubRec) : (stage4 c).evaluated = c.evaluated :=
  congrArg (fun t => t.2.2.2.2.2.2.1) (stage4_keeps c)

lemma stage4_uploaded_at (c : SubRec) : (stage4 c).uploaded_at = c.uploaded_at :=
  congrArg (fun t => t.2.2.2.2.2.2.2.1) (stage4_keeps c)

lemma stage4_created_at (c : SubRec) : (stage4 c).created_at = c.created_at :=
  congrArg (fun t => t.2.2.2.2.2.2.2.2.1) (stage4_keeps c)

lemma stage4_created (c : SubRec) : (stage4 c).created = c.created :=
  congrArg (fun t => t.2.2.2.2.2.2.2.2.2.1) (stage4_keeps c)

lemma stage4_filename (c : SubRec) : (stage4 c).filename = c.filename :=
  congrArg (fun t => t.2.2.2.2.2.2.2.2.2.2.1) (stage4_keeps c)

lemma stage4_file_name (c : SubRec) : (stage4 c).file_name = c.file_name :=
  congrArg (fun t => t.2.2.2.2.2.2.2.2.2.2.2.1) (stage4_keeps c)

lemma stage4_file_path (c : SubRec) : (stage4 c).file_path = c.file_path :=
  congrArg (fun t => t.2.2.2.2.2.2.2.2.2.2.2.2.1) (stage4_keeps c)

lemma stage4_path (c : SubRec) : (stage4 c).path = c.path :=
  congrArg (fun t => t.2.2.2.2.2.2.2.2.2.2.2.2.2.1) (stage4_keeps c)

lemma stage4_storage_path (c : SubRec) : (stage4 c).storage_path = c.storage_path :=
  congrArg (fun t => t.2.2.2.2.2.2.2.2.2.2.2.2.2.2.1) (stage4_keeps c)

lemma stage4_other (c : SubRec) : (stage4 c).other = c.other :=
  congrArg (fun t => t.2.2.2.2.2.2.2.2.2.2.2.2.2.2.2) (stage4_keeps c)

lemma stage5_score_json (c : SubRec) : (stage5 c).score_json = c.score_json :=
  congrArg (fun t => t.1) (stage5_keeps c)

lemma stage5_metrics (c : SubRec) : (stage5 c).metrics = c.metrics :=
  congrArg (fun t => t.2.1) (stage5_keeps c)

lemma stage5_f1 (c : SubRec) : (stage5 c).f1 = c.f1 :=
  congrArg (fun t => t.2.2.1) (stage5_keeps c)

lemma stage5_precision (c : SubRec) : (stage5 c).precision = c.precision :=
  congrArg (fun t => t.2.2.2.1) (stage5_keeps c)

lemma stage5_recall (c : SubRec) : (stage5 c).«recall» = c.«recall» :=
  congrArg (fun t => t.2.2.2.2.1) (stage5_keeps c)

lemma stage5_accuracy (c : SubRec) : (stage5 c).accuracy = c.accuracy :=
  congrArg (fun t => t.2.2.2.2.2.1) (stage5_keeps c)

lemma stage5_auc (c : SubRec) : (stage5 c).auc = c.auc :=
  congrArg (fun t => t.2.2.2.2.2.2.1) (stage5_keeps c)

lemma stage5_score (c : SubRec) : (stage5 c).score = c.score :=
  congrArg (fun t => t.2.2.2.2.2.2.2.1) (stage5_keeps c)

lemma stage5_evaluated (c : SubRec) : (stage5 c).evaluated = c.evaluated :=
  congrArg (fun t => t.2.2.2.2.2.2.2.2.1) (stage5_keeps c)

lemma stage5_created_at (c : SubRec) : (stage5 c).created_at = c.created_at :=
  congrArg (fun t => t.2.2.2.2.2.2.2.2.2.1) (stage5_keeps c)

lemma stage5_created (c : SubRec) : (stage5 c).created = c.created :=
  congrArg (fun t => t.2.2.2.2.2.2.2.2.2.2.1) (stage5_keeps c)

lemma stage5_filename (c : SubRec) : (stage5 c).filename = c.filename :=
  congrArg (fun t => t.2.2.2.2.2.2.2.2.2.2.2.1) (stage5_keeps c)

lemma stage5_file_name (c : SubRec) : (stage5 c).file_name = c.file_name :=
  congrArg (fun t => t.2.2.2.2.2.2.2.2.2.2.2.2.1) (stage5_keeps c)

lemma stage5_file_path (c : SubRec) : (stage5 c).file_path = c.file_path :=
  congrArg (fun t => t.2.2.2.2.2.2.2.2.2.2.2.2.2.1) (stage5_keeps c)

lemma stage5_path (c : SubRec) : (stage5 c).path = c.path :=
  congrArg (fun t => t.2.2.2.2.2.2.2.2.2.2.2.2.2.2.1) (stage5_keeps c)

lemma stage5_storage_path (c : SubRec) : (stage5 c).storage_path = c.storage_path :=
  congrArg (fun t => t.2.2.2.2.2.2.2.2.2.2.2.2.2.2.2.1) (stage5_keeps c)

lemma stage5_other (c : SubRec) : (stage5 c).other = c.other :=
  congrArg (fun t => t.2.2.2.2.2.2.2.2.2.2.2.2.2.2.2.2) (stage5_keeps c)

lemma stage6_score_json (c : SubRec) : (stage6 c).score_json = c.score_json :=
  congrArg (fun t => t.1) (stage6_keeps c)

lemma stage6_metrics (c : SubRec) : (stage6 c).metrics = c.metrics :=
  congrArg (fun t => t.2.1) (stage6_keeps c)

lemma stage6_f1 (c : SubRec) : (stage6 c).f1 = c.f1 :=
  congrArg (fun t => t.2.2.1) (stage6_keeps c)

lemma stage6_precision (c : SubRec) : (stage6 c).precision = c.precision :=
  congrArg (fun t => t.2.2.2.1) (stage6_keeps c)

lemma stage6_recall (c : SubRec) : (stage6 c).«recall» = c.«recall» :=
  congrArg (fun t => t.2.2.2.2.1) (stage6_keeps c)

lemma stage6_accuracy (c : SubRec) : (stage6 c).accuracy = c.accuracy :=
  congrArg (fun t => t.2.2.2.2.2.1) (stage6_keeps c)

lemma stage6_auc (c : SubRec) : (stage6 c).auc = c.auc :=
  congrArg (fun t => t.2.2.2.2.2.2.1) (stage6_keeps c)

lemma stage6_score (c : SubRec) : (stage6 c).score = c.score :=
  congrArg (fun t => t.2.2.2.2.2.2.2.1) (stage6_keeps c)

lemma stage6_evaluated (c : SubRec) : (stage6 c).evaluated = c.evaluated :=
  congrArg (fun t => t.2.2.2.2.2.2.2.2.1) (stage6_keeps c)

lemma stage6_uploaded_at (c : SubRec) : (stage6 c).uploaded_at = c.uploaded_at :=
  congrArg (fun t => t.2.2.2.2.2.2.2.2.2.1) (stage6_keeps c)

lemma stage6_created_at (c : SubRec) : (stage6 c).created_at = c.created_at :=
  congrArg (fun t => t.2.2.2.2.2.2.2.2.2.2.1) (stage6_keeps c)

lemma stage6_created (c : SubRec) : (stage6 c).created = c.created :=
  congrArg (fun t => t.2.2.2.2.2.2.2.2.2.2.2.1) (stage6_keeps c)

lemma stage6_file_name (c : SubRec) : (stage6 c).file_name = c.file_name :=
  congrArg (fun t => t.2.2.2.2.2.2.2.2.2.2.2.2.1) (stage6_keeps c)

lemma stage6_file_path (c : SubRec) : (stage6 c).file_path = c.file_path :=
  congrArg (fun t => t.2.2.2.2.2.2.2.2.2.2.2.2.2.1) (stage6_keeps c)

lemma stage6_path (c : SubRec) : (stage6 c).path = c.path :=
  congrArg (fun t => t.2.2.2.2.2.2.2.2.2.2.2.2.2.2.1) (stage6_keeps c)

lemma stage6_storage_path (c : SubRec) : (stage6 c).storage_path = c.storage_path :=
  congrArg (fun t => t.2.2.2.2.2.2.2.2.2.2.2.2.2.2.2.1) (stage6_keeps c)

lemma stage6_other (c : SubRec) : (stage6 c).other = c.other :=
  congrArg (fun t => t.2.2.2.2.2.2.2.2.2.2.2.2.2.2.2.2) (stage6_keeps c)
lemma stage3_score_json (c : SubRec) : (stage3 c).score_json = c.score_json := (stage3_eqOther c).1
lemma stage3_metrics (c : SubRec) : (stage3 c).metrics = c.metrics := (stage3_eqOther c).2.1
lemma stage3_score (c : SubRec) : (stage3 c).score = c.score := (stage3_eqOther c).2.2.1
lemma stage3_evaluated (c : SubRec) : (stage3 c).evaluated = c.evaluated := (stage3_eqOther c).2.2.2.1
lemma stage3_uploaded_at (c : SubRec) : (stage3 c).uploaded_at = c.uploaded_at := (stage3_eqOther c).2.2.2.2.1
lemma stage3_created_at (c : SubRec) : (stage3 c).created_at = c.created_at := (stage3_eqOther c).2.2.2.2.2.1
lemma stage3_created (c : SubRec) : (stage3 c).created = c.created := (stage3_eqOther c).2.2.2.2.2.2.1
lemma stage3_filename (c : SubRec) : (stage3 c).filename = c.filename := (stage3_eqOther c).2.2.2.2.2.2.2.1
lemma stage3_file_name (c : SubRec) : (stage3 c).file_name = c.file_name := (stage3_eqOther c).2.2.2.2.2.2.2.2.1
lemma stage3_file_path (c : SubRec) : (stage3 c).file_path = c.file_path := (stage3_eqOther c).2.2.2.2.2.2.2.2.2.1
lemma stage3_path (c : SubRec) : (stage3 c).path = c.path := (stage3_eqOther c).2.2.2.2.2.2.2.2.2.2.1
lemma stage3_storage_path (c : SubRec) : (stage3 c).storage_path = c.storage_path := (stage3_eqOther c).2.2.2.2.2.2.2.2.2.2.2.1
lemma stage3_other (c : SubRec) : (stage3 c).other = c.other := (stage3_eqOther c).2.2.2.2.2.2.2.2.2.2.2.2

/-- The tail of the normalizer after the metrics unwrapping. -/
def normTail (c : SubRec) : SubRec := stage6 (stage5 (stage4 (stage3 c)))

lemma normalizeSub_eq_normTail (c : SubRec) :
    normalizeSub c = normTail (stage2 (stage1 c)) := rfl

/-- The value each promoted metric field receives from a metrics object:
the direct entry, else the entry promoted from metrics.results. -/
def mlook (fields : List (String × JVal)) (n : String) : Option JVal :=
  (jsGet (.obj fields) n).or (resultsLookup (.obj fields) n)

lemma getNamed_eq_field (c : SubRec) :
    getNamed c ("f1") = c.f1 ∧ getNamed c ("precision") = c.precision
    ∧ getNamed c ("recall") = c.«recall» ∧ getNamed c ("accuracy") = c.accuracy
    ∧ getNamed c ("auc") = c.auc := by
  refine ⟨?_, ?_, ?_, ?_, ?_⟩ <;> simp [getNamed]

lemma stage3_field_of_obj (c : SubRec) (fields : List (String × JVal))
    (hm : c.metrics = some (.obj fields)) (n : String) (hn : n ∈ metricKeys) :
    getNamed (stage3 c) n = (getNamed c n).or (mlook fields n) := by
  have h := getNamed_stage3 c n hn
  rw [hm] at h
  dsimp only at h
  simp only [truthy, isObjectTypeof, Bool.and_self, eq_self_iff_true, if_true] at h
  rw [h, mlook]
  rcases getNamed c n with _ | w
  · simp [Option.or]
  · simp [Option.or]

lemma metricsOf_normTail (c : SubRec) (fields : List (String × JVal))
    (hm : c.metrics = some (.obj fields))
    (h1 : c.f1 = none) (h2 : c.precision = none) (h3 : c.«recall» = none)
    (h4 : c.accuracy = none) (h5 : c.auc = none) :
    metricsOf (normTail c) =
      (mlook fields ("f1"), mlook fields ("precision"), mlook fields ("recall"),
       (mlook fields ("accuracy")).or (mlook fields ("auc")), mlook fields ("auc")) := by
  have g := getNamed_eq_field c
  have gf1 : (stage3 c).f1 = mlook fields ("f1") := by
    have := stage3_field_of_obj c fields hm ("f1") (by simp [metricKeys])
    rw [(getNamed_eq_field (stage3 c)).1, g.1, h1] at this
    simpa [Option.or] using this
  have gpr : (stage3 c).precision = mlook fields ("precision") := by
    have := stage3_field_of_obj c fields hm ("precision") (by simp [metricKeys])
    rw [(getNamed_eq_field (stage3 c)).2.1, g.2.1, h2] at this
    simpa [Option.or] using this
  have grc : (stage3 c).«recall» = mlook fields ("recall") := by
    have := stage3_field_of_obj c fields hm ("recall") (by simp [metricKeys])
    rw [(getNamed_eq_field (stage3 c)).2.2.1, g.2.2.1, h3] at this
    simpa [Option.or] using this
  have gac : (stage3 c).accuracy = mlook fields ("accuracy") := by
    have := stage3_field_of_obj c fields hm ("accuracy") (by simp [metricKeys])
    rw [(getNamed_eq_field (stage3 c)).2.2.2.1, g.2.2.2.1, h4] at this
    simpa [Option.or] using this
  have gau : (stage3 c).auc = mlook fields ("auc") := by
    have := stage3_field_of_obj c fields hm ("auc") (by simp [metricKeys])
    rw [(getNamed_eq_field (stage3 c)).2.2.2.2, g.2.2.2.2, h5] at this
    simpa [Option.or] using this
  unfold normTail metricsOf
  rw [stage6_f1, stage5_f1, stage4_f1, gf1]
  rw [stage6_precision, stage5_precision, stage4_precision, gpr]
  rw [stage6_recall, stage5_recall, stage4_recall, grc]
  rw [stage6_accuracy, stage5_accuracy, stage4_accuracy, gac, gau]
  rw [stage6_auc, stage5_auc, stage4_auc, gau]
lemma jsGet_obj_none_iff (fs : List (String × JVal)) (k : String) :
    jsGet (.obj fs) k = none ↔ k ∉ fs.map Prod.fst := by
  simp only [jsGet, Option.map_eq_none', List.find?_eq_none, List.mem_map, beq_iff_eq]
  constructor
  · intro h hmem
    obtain ⟨p, hp, hfst⟩ := hmem
    exact h p hp hfst
  · intro h p hp hfst
    exact h ⟨p, hp, hfst⟩

lemma resultsLookup_of_keys (fields : List (String × JVal))
    (hk : ∀ p ∈ fields, p.1 ∈ metricKeys) (n : String) :
    resultsLookup (.obj fields) n = none := by
  unfold resultsLookup
  have hres : jsGet (.obj fields) ("results") = none := by
    rw [jsGet_obj_none_iff]
    intro hmem
    obtain ⟨p, hp, hfst⟩ := List.mem_map.mp hmem
    have := hk p hp
    rw [hfst] at this
    simp [metricKeys] at this
  rw [hres]

lemma mlook_flat (fields : List (String × JVal))
    (hk : ∀ p ∈ fields, p.1 ∈ metricKeys) (n : String) :
    mlook fields n = jsGet (.obj fields) n := by
  unfold mlook
  rw [resultsLookup_of_keys fields hk n]
  rcases jsGet (.obj fields) n with _ | w <;> rfl

lemma mlook_nested (fields : List (String × JVal)) (n : String) (hn : n ∈ metricKeys) :
    mlook [("results", .obj fields)] n = jsGet (.obj fields) n := by
  unfold mlook resultsLookup
  have hjn : jsGet (.obj [("results", .obj fields)]) n = none := by
    rw [jsGet_obj_none_iff]
    intro hmem
    simp at hmem
    subst hmem
    simp [metricKeys] at hn
  have hr : jsGet (.obj [("results", .obj fields)]) ("results") = some (.obj fields) := by
    simp [jsGet]
  rw [hjn, hr]
  simp only [truthy, isObjectTypeof, Bool.and_self, eq_self_iff_true, if_true]
  by_cases hmem : n ∈ keysOf (.obj fields)
  · simp [hmem, Option.or]
  · have : jsGet (.obj fields) n = none := by
      rw [jsGet_obj_none_iff]
      simpa [keysOf] using hmem
    simp [hmem, this, Option.or]
/-- C1: the metrics-unwrapping rules of the submissions normalizer are
applied in order (score_json string parsed, score_json object aliased,
string metrics parsed, then per-key promotion from the top level, from
metrics, and from metrics.results), and every encoding of the same
underlying metric values normalizes identically: a payload carrying the
metrics object as a JSON string in score_json, as an object in
score_json, as a JSON string in metrics, or nested under metrics.results
yields the same promoted {f1, precision, recall, accuracy, auc} as
carrying it directly in metrics. -/
theorem c1_metrics_encodings_agree (s : String) (fields : List (String × JVal))
    (hp : parseJson s = some (.obj fields))
    (hk : ∀ p ∈ fields, p.1 ∈ metricKeys) :
    metricsOf (normalizeSub { score_json := some (.str s) })
      = metricsOf (normalizeSub { metrics := some (.obj fields) })
    ∧ metricsOf (normalizeSub { score_json := some (.obj fields) })
      = metricsOf (normalizeSub { metrics := some (.obj fields) })
    ∧ metricsOf (normalizeSub { metrics := some (.str s) })
      = metricsOf (normalizeSub { metrics := some (.obj fields) })
    ∧ metricsOf (normalizeSub { metrics := some (.obj [("results", .obj fields)]) })
      = metricsOf (normalizeSub { metrics := some (.obj fields) }) := by
  have hs : s ≠ "" := by
    intro h
    subst h
    rw [show parseJson ("") = none from rfl] at hp
    exact Option.noConfusion hp
  have e1 : stage2 (stage1 ({ score_json := some (.str s) } : SubRec)) =
      { score_json := some (.str s), metrics := some (.obj fields) } := by
    simp [stage1, stage2, truthy, isStringV, hs, hp]
  have e2 : stage2 (stage1 ({ score_json := some (.obj fields) } : SubRec)) =
      { score_json := some (.obj fields), metrics := some (.obj fields) } := by
    simp [stage1, stage2, truthy, isStringV, isObjectTypeof, jsNullish]
  have e3 : stage2 (stage1 ({ metrics := some (.str s) } : SubRec)) =
      { metrics := some (.obj fields) } := by
    simp [stage1, stage2, hp]
  have e4 : stage2 (stage1 ({ metrics := some (.obj fields) } : SubRec)) =
      { metrics := some (.obj fields) } := by
    simp [stage1, stage2]
  have e5 : stage2 (stage1 ({ metrics := some (.obj [("results", .obj fields)]) } : SubRec)) =
      { metrics := some (.obj [("results", .obj fields)]) } := by
    simp [stage1, stage2]
  have t1 := metricsOf_normTail
    ({ score_json := some (.str s), metrics := some (.obj fields) } : SubRec) fields
    rfl rfl rfl rfl rfl rfl
  have t2 := metricsOf_normTail
    ({ score_json := some (.obj fields), metrics := some (.obj fields) } : SubRec) fields
    rfl rfl rfl rfl rfl rfl
  have t4 := metricsOf_normTail ({ metrics := some (.obj fields) } : SubRec) fields
    rfl rfl rfl rfl rfl rfl
  have t5 := metricsOf_normTail
    ({ metrics := some (.obj [("results", .obj fields)]) } : SubRec)
    [("results", .obj fields)] rfl rfl rfl rfl rfl rfl
  refine ⟨?_, ?_, ?_, ?_⟩
  · rw [normalizeSub_eq_normTail, normalizeSub_eq_normTail, e1, e4, t1, t4]
  · rw [normalizeSub_eq_normTail, normalizeSub_eq_normTail, e2, e4, t2, t4]
  · rw [normalizeSub_eq_normTail, normalizeSub_eq_normTail, e3, e4, t4]
  · rw [normalizeSub_eq_normTail, normalizeSub_eq_normTail, e5, e4, t5, t4]
    rw [mlook_nested fields ("f1") (by simp [metricKeys]),
      mlook_nested fields ("precision") (by simp [metricKeys]),
      mlook_nested fields ("recall") (by simp [metricKeys]),
      mlook_nested fields ("accuracy") (by simp [metricKeys]),
      mlook_nested fields ("auc") (by simp [metricKeys]),
      mlook_flat fields hk ("f1"), mlook_flat fields hk ("precision"),
      mlook_flat fields hk ("recall"), mlook_flat fields hk ("accuracy"),
      mlook_flat fields hk ("auc")]

/-- Witness for C1 at a concrete payload: the metrics object with f1 0.5
and auc 0.25, JSON-encoded into score_json. -/
theorem c1_metrics_encodings_agree_witness :
    metricsOf (normalizeSub { score_json := some (.str ("\x7b\"f1\":0.5,\"auc\":0.25\x7d")) })
      = metricsOf (normalizeSub
          { metrics := some (.obj [("f1", .num (mkRat 1 2)), ("auc", .num (mkRat 1 4))]) }) :=
  (c1_metrics_encodings_agree ("\x7b\"f1\":0.5,\"auc\":0.25\x7d")
    [("f1", .num (mkRat 1 2)), ("auc", .num (mkRat 1 4))]
    (by rfl)
    (by
      intro p hp
      fin_cases hp <;> simp [metricKeys])).1
/-- C2: the list unwrapping of the backend payload tries items, then
results, then data, then the raw payload itself, else the empty
sequence; any payload shape placing the same list under items, results,
data, or bare yields that same list, in both the Submissions view
(fetch + Array.isArray guard) and the Datasets view (?? chain with
|| [] default); a keyless object payload yields the empty list in the
Submissions view. -/
theorem c2_list_unwrapping (xs : List JVal) :
    subListOf (.obj [("items", .arr xs)]) = xs
    ∧ subListOf (.obj [("results", .arr xs)]) = xs
    ∧ subListOf (.obj [("data", .arr xs)]) = xs
    ∧ subListOf (.arr xs) = xs
    ∧ subListOf (.obj []) = []
    ∧ subListOf .null = []
    ∧ dsItemsVal (.obj [("items", .arr xs)]) = .arr xs
    ∧ dsItemsVal (.obj [("results", .arr xs)]) = .arr xs
    ∧ dsItemsVal (.obj [("data", .arr xs)]) = .arr xs
    ∧ dsItemsVal (.arr xs) = .arr xs := by
  refine ⟨?_, ?_, ?_, ?_, ?_, ?_, ?_, ?_, ?_, ?_⟩ <;>
    simp [subListOf, sItemsVal, dsItemsVal, dsResultsVal, jsNullish, jsGet, truthy]

/-- C6: whenever a credential is held the session store issues the
profile fetch with the Bearer header, and any failure of that fetch
clears credential, profile and the persisted credential, exactly as
logout does, leaving the unauthenticated state. -/
theorem c6_profile_failure_clears_session (api : String) (st : AuthState) (e : Unit)
    (h : st.token ≠ "") :
    profileFetchReq api st
      = some { url := api ++ "/users/me", headers := [("Authorization", "Bearer " ++ st.token)] }
    ∧ onProfileResult st (.error e) = logout st
    ∧ (onProfileResult st (.error e)).token = ""
    ∧ (onProfileResult st (.error e)).user = none
    ∧ (onProfileResult st (.error e)).storedToken = none := by
  refine ⟨?_, rfl, rfl, rfl, rfl⟩
  simp [profileFetchReq, h]

/-- Witness for C6 at a concrete session state. -/
theorem c6_profile_failure_clears_session_witness :
    profileFetchReq ("http://localhost:8000")
        { token := "abc", user := none, storedToken := some "abc" }
      = some { url := "http://localhost:8000/users/me",
               headers := [("Authorization", "Bearer abc")] }
    ∧ onProfileResult { token := "abc", user := none, storedToken := some "abc" } (.error ())
      = logout { token := "abc", user := none, storedToken := some "abc" } :=
  ⟨(c6_profile_failure_clears_session ("http://localhost:8000")
      { token := "abc", user := none, storedToken := some "abc" } () (by decide)).1,
   (c6_profile_failure_clears_session ("http://localhost:8000")
      { token := "abc", user := none, storedToken := some "abc" } () (by decide)).2.1⟩

/-- C8: a dataset upload attempt with no chosen ground-truth file sets
the message Ground truth CSV required and issues no request; name,
description and the chosen data file are unchanged. -/
theorem c8_upload_requires_groundtruth (api : String) (hdrs : List (String × String))
    (st : DsForm) (resp : Except String Unit) (h : st.gtFile = none) :
    datasetUpload api hdrs st resp = ({ st with msg := "Ground truth CSV required" }, none)
    ∧ (datasetUpload api hdrs st resp).1.name = st.name
    ∧ (datasetUpload api hdrs st resp).1.desc = st.desc
    ∧ (datasetUpload api hdrs st resp).1.dataFile = st.dataFile
    ∧ (datasetUpload api hdrs st resp).2 = none := by
  obtain ⟨nm, ds, df, gf, mg⟩ := st
  cases h
  exact ⟨rfl, rfl, rfl, rfl, rfl⟩

/-- Witness for C8 at a concrete form state. -/
theorem c8_upload_requires_groundtruth_witness :
    datasetUpload ("http://localhost:8000") []
        { name := "LUNA25 Test", desc := "d", dataFile := none, gtFile := none, msg := "" }
        (.ok ())
      = ({ name := "LUNA25 Test", desc := "d", dataFile := none, gtFile := none,
           msg := "Ground truth CSV required" }, none) :=
  (c8_upload_requires_groundtruth ("http://localhost:8000") []
    { name := "LUNA25 Test", desc := "d", dataFile := none, gtFile := none, msg := "" }
    (.ok ()) rfl).1
/-- Counterexample to C5: with the credential abc held, the dataset-list
request of the Dashboard mount effect carries no Authorization header
(while the submission-list request does). -/
theorem c5_not_every_call_has_bearer :
    (dashboardMountReqs ("http://localhost:8000") ("abc")).map
        (fun r => r.headers.lookup ("Authorization"))
      = [none, some ("Bearer abc")] := by
  simp [dashboardMountReqs, authHeader]

/-- C5 amended: every request of the Dashboard mount effect and the
Submissions load uses exactly the authHeader helper value, except the
two dataset-list fetches, which always send empty headers; the helper
value carries the Bearer credential exactly when one is held, and the
profile fetch of the session store always carries it. -/
theorem c5_bearer_amended (api token dsid : String) (page : Nat) :
    (∀ r ∈ dashboardMountReqs api token,
        r.headers = authHeader token ∨ (r.url = api ++ "/datasets/" ∧ r.headers = []))
    ∧ (∀ r ∈ submissionsLoadReqs api token page dsid,
        r.headers = authHeader token ∨ (r.url = api ++ "/datasets/" ∧ r.headers = []))
    ∧ (token ≠ "" → (authHeader token).lookup ("Authorization") = some ("Bearer " ++ token))
    ∧ (token = "" → (authHeader token).lookup ("Authorization") = none)
    ∧ (∀ st : AuthState, ∀ r, profileFetchReq api st = some r →
        r.headers.lookup ("Authorization") = some ("Bearer " ++ st.token)) := by
  refine ⟨?_, ?_, ?_, ?_, ?_⟩
  · intro r hr
    simp only [dashboardMountReqs, List.mem_cons, List.not_mem_nil, or_false] at hr
    rcases hr with rfl | rfl
    · exact Or.inr ⟨rfl, rfl⟩
    · exact Or.inl rfl
  · intro r hr
    simp only [submissionsLoadReqs, List.mem_cons, List.not_mem_nil, or_false] at hr
    rcases hr with rfl | rfl
    · exact Or.inr ⟨rfl, rfl⟩
    · exact Or.inl rfl
  · intro h
    simp [authHeader, h]
  · intro h
    simp [authHeader, h]
  · intro st r hr
    unfold profileFetchReq at hr
    by_cases h : st.token ≠ ""
    · rw [if_pos h] at hr
      cases hr
      rfl
    · rw [if_neg h] at hr
      exact Option.noConfusion hr

/-- Witness for C5 amended at a concrete token, page and request. -/
theorem c5_bearer_amended_witness :
    (authHeader ("abc")).lookup ("Authorization") = some ("Bearer abc")
    ∧ ({ url := "http://localhost:8000/submissions/", headers := authHeader ("abc") } : Req).headers
        = authHeader ("abc") := by
  refine ⟨(c5_bearer_amended ("http://localhost:8000") ("abc") ("") 1).2.2.1 (by decide), ?_⟩
  have h := (c5_bearer_amended ("http://localhost:8000") ("abc") ("") 1).1
    { url := "http://localhost:8000/submissions/", headers := authHeader ("abc") }
    (by simp [dashboardMountReqs])
  rcases h with h | h
  · exact h
  · exact absurd h.1 (by decide)
/-- The C7 record: id 1 and stats_json holding a JSON-encoded string. -/
def dsStatsJsonString : DsRec :=
  { id := some (.num 1), stats_json := some (.str ("\x7b\"total_rows\":10\x7d")) }

/-- The amended record: the same JSON text arriving in the stats field. -/
def dsStatsString : DsRec :=
  { id := some (.num 1), stats := some (.str ("\x7b\"total_rows\":10\x7d")) }

/-- Counterexample to C7: for the dataset record with id 1 and stats_json
holding the JSON-encoded string, getStats never parses a string
stats_json (only stats or stats_raw strings are parsed), so it yields
null and the view renders no Total cell at all. -/
theorem c7_stats_json_string_not_parsed :
    getStats (some dsStatsJsonString) = .null ∧ renderTotal dsStatsJsonString = none :=
  ⟨rfl, rfl⟩

/-- C7 amended: the JSON-encoded stats string is parsed and Total: 10 is
rendered when it arrives in the stats field (or already as an object in
stats_json); a JSON string in stats_json itself is not parsed and
renders no stats. -/
theorem c7_stats_normalization_amended :
    getStats (some dsStatsString) = .obj [("total_rows", .num 10)]
    ∧ renderTotal dsStatsString = some ("10")
    ∧ getStats (some ({ id := some (.num 1), stats_json := some (.obj [("total_rows", .num 10)]) } : DsRec))
      = .obj [("total_rows", .num 10)]
    ∧ renderTotal ({ id := some (.num 1), stats_json := some (.obj [("total_rows", .num 10)]) } : DsRec)
      = some ("10")
    ∧ renderTotal dsStatsJsonString = none :=
  ⟨rfl, rfl, rfl, rfl, rfl⟩
/-- The C4 scenario record: an evaluated submission whose score_json is
the object with the single (uppercase) key AUC holding 0.91. -/
def subAucUpper : SubRec :=
  { score_json := some (.obj [("AUC", .num (mkRat 91 100))]), evaluated := some (.bool true) }

/-- Counterexample to C4: in the Submissions view that reads score_json
directly, the scenario record renders AUC as 0.9100 but renders the
Accuracy cell as an em dash, not the AUC value; and the normalizer does
not promote the uppercase AUC key, so the normalized accuracy stays
absent and the normalizing view also renders an em dash. -/
theorem c4_accuracy_scenario_fails :
    scoreJsonCell subAucUpper ("AUC") = some ("0.9100")
    ∧ scoreJsonCell subAucUpper ("Accuracy") = some ("—")
    ∧ (normalizeSub subAucUpper).accuracy = none
    ∧ (normalizeSub subAucUpper).auc = none
    ∧ metricCell (normalizeSub subAucUpper).accuracy = "—" :=
  ⟨rfl, rfl, rfl, rfl, rfl⟩

/-- C4 amended: after the metric promotion (stages 1 to 3), the
normalizer fills accuracy from accuracy else auc, and the generic score
alias from score else auc else accuracy — but only for the lowercase
keys; the scenario payload score_json = (AUC: 0.91) is case-sensitively
missed, so AUC renders 0.9100 only in the view reading score_json
directly, while Accuracy renders an em dash there and in the
normalizing view. -/
theorem c4_accuracy_score_fallback_amended :
    (∀ c : SubRec,
      (normalizeSub c).accuracy
          = ((stage3 (stage2 (stage1 c))).accuracy).or ((stage3 (stage2 (stage1 c))).auc)
      ∧ (normalizeSub c).score
          = ((stage3 (stage2 (stage1 c))).score).or
              (((stage3 (stage2 (stage1 c))).auc).or ((stage3 (stage2 (stage1 c))).accuracy)))
    ∧ scoreJsonCell subAucUpper ("AUC") = some ("0.9100")
    ∧ scoreJsonCell subAucUpper ("Accuracy") = some ("—")
    ∧ metricCell (normalizeSub subAucUpper).accuracy = "—" := by
  refine ⟨?_, rfl, rfl, rfl⟩
  intro c
  constructor
  · rw [show normalizeSub c = stage6 (stage5 (stage4 (stage3 (stage2 (stage1 c))))) from rfl]
    rw [stage6_accuracy, stage5_accuracy, stage4_accuracy]
  · rw [show normalizeSub c = stage6 (stage5 (stage4 (stage3 (stage2 (stage1 c))))) from rfl]
    rw [stage6_score, stage5_score, stage4_score]
lemma string_mk_append (l1 l2 : List Char) : (⟨l1⟩ : String) ++ (⟨l2⟩ : String) = ⟨l1 ++ l2⟩ := rfl

lemma data_append (a b : String) : (a ++ b).data = a.data ++ b.data := rfl

lemma encodeChars_of_unreserved (l : List Char) (h : ∀ c ∈ l, uriUnreserved c = true) :
    encodeChars l = ⟨l⟩ := by
  induction l with
  | nil => rfl
  | cons c cs ih =>
    unfold encodeChars
    rw [if_pos (h c (List.mem_cons_self c cs)), ih (fun x hx => h x (List.mem_cons_of_mem c hx))]
    rfl

lemma afterChar_cons (sep c : Char) (l : List Char) :
    afterChar sep (c :: l) = if (c == sep) = true then some l else afterChar sep l := rfl

lemma splitOnCharL_cons (sep c : Char) (l : List Char) :
    splitOnCharL sep (c :: l) =
      if (c == sep) = true then [] :: splitOnCharL sep l
      else
        match splitOnCharL sep l with
        | h :: t => (c :: h) :: t
        | [] => [[c]] := rfl

lemma afterChar_append_of_not_mem (sep : Char) (l1 l2 : List Char)
    (h : ∀ c ∈ l1, (c == sep) = false) :
    afterChar sep (l1 ++ l2) = afterChar sep l2 := by
  induction l1 with
  | nil => rfl
  | cons c cs ih =>
    rw [List.cons_append, afterChar_cons, h c (List.mem_cons_self c cs)]
    simp only [Bool.false_eq_true, if_false]
    exact ih (fun x hx => h x (List.mem_cons_of_mem c hx))

lemma splitOnCharL_ne_nil (sep : Char) (l : List Char) : splitOnCharL sep l ≠ [] := by
  cases l with
  | nil => simp [splitOnCharL]
  | cons c cs =>
    rw [splitOnCharL_cons]
    by_cases h : (c == sep) = true
    · simp [h]
    · simp only [Bool.not_eq_true] at h
      rw [h]
      simp only [Bool.false_eq_true, if_false]
      rcases hs : splitOnCharL sep cs with _ | ⟨hd, tl⟩
      · simp
      · simp

lemma splitOnCharL_append_of_not_mem (sep : Char) (l1 l2 : List Char)
    (h : ∀ c ∈ l1, (c == sep) = false) :
    splitOnCharL sep (l1 ++ l2) =
      (l1 ++ (splitOnCharL sep l2).headD []) :: (splitOnCharL sep l2).tail := by
  induction l1 with
  | nil =>
    simp only [List.nil_append]
    rcases hs : splitOnCharL sep l2 with _ | ⟨hd, tl⟩
    · exact absurd hs (splitOnCharL_ne_nil sep l2)
    · rfl
  | cons c cs ih =>
    rw [List.cons_append, splitOnCharL_cons, h c (List.mem_cons_self c cs)]
    simp only [Bool.false_eq_true, if_false]
    rw [ih (fun x hx => h x (List.mem_cons_of_mem c hx))]
    rfl

lemma takeWhile_append_stop (p : Char → Bool) (l1 : List Char) (c : Char) (l2 : List Char)
    (h1 : ∀ x ∈ l1, p x = true) (h2 : p c = false) :
    (l1 ++ c :: l2).takeWhile p = l1 := by
  induction l1 with
  | nil => simp [List.takeWhile_cons, h2]
  | cons a as ih =>
    rw [List.cons_append, List.takeWhile_cons, h1 a (List.mem_cons_self a as),
      ih (fun x hx => h1 x (List.mem_cons_of_mem a hx))]
    rfl

lemma uriUnreserved_excludes (c : Char) (h : uriUnreserved c = true) :
    (c == '?') = false ∧ (c == '&') = false ∧ (c == '=') = false := by
  refine ⟨?_, ?_, ?_⟩ <;>
    · rw [beq_eq_false_iff_ne]
      intro he
      subst he
      simp [uriUnreserved] at h

/-- C10: the Notebook view embeds the held credential, URI-encoded, as
the token query parameter of the iframe URL
/lite/index.html?token=...&dataset_id= ; for the character set of real
bearer tokens (unreserved URI characters, as in base64url JWTs) the
encoding is the identity, so parsing the query string of the URL
returns the credential itself: the session credential is exposed in the
embedded document URL. -/
theorem c10_notebook_embeds_token (token : String)
    (h : ∀ c ∈ token.data, uriUnreserved c = true) :
    (queryParams (notebookSrc token)).lookup ("token") = some token := by
  have henc : encodeURIComponent token = token := by
    unfold encodeURIComponent
    rw [encodeChars_of_unreserved token.data h]
  have hsplit : notebookSrc token = "/lite/index.html" ++ "?" ++ ("token=" ++ token ++ "&dataset_id=") := by
    unfold notebookSrc
    rw [henc]
    rfl
  unfold queryParams
  rw [hsplit]
  rw [show ("/lite/index.html" ++ "?" ++ ("token=" ++ token ++ "&dataset_id=")).data
      = "/lite/index.html".data ++ ('?' :: ("token=" ++ token ++ "&dataset_id=").data) from rfl]
  rw [afterChar_append_of_not_mem '?' _ _ (by decide)]
  rw [show afterChar '?' ('?' :: ("token=" ++ token ++ "&dataset_id=").data)
      = some (("token=" ++ token ++ "&dataset_id=").data) from by simp [afterChar]]
  have hq : ("token=" ++ token ++ "&dataset_id=").data
      = ("token=".data ++ token.data) ++ ('&' :: "dataset_id=".data) := by
    simp [data_append]
  rw [hq]
  have htk : ∀ c ∈ ("token=").data, (c == '&') = false := by decide
  have hnoamp : ∀ c ∈ ("token=").data ++ token.data, (c == '&') = false := by
    intro c hc
    rcases List.mem_append.mp hc with hc | hc
    · exact htk c hc
    · exact (uriUnreserved_excludes c (h c hc)).2.1
  dsimp only
  rw [splitOnCharL_append_of_not_mem '&' _ _ hnoamp]
  rw [show splitOnCharL '&' ('&' :: "dataset_id=".data)
      = [] :: splitOnCharL '&' ("dataset_id=".data) from by simp [splitOnCharL]]
  rw [show splitOnCharL '&' ("dataset_id=".data) = ["dataset_id=".data] from by decide]
  simp only [List.headD, List.tail, List.map, List.append_nil]
  have hparam : paramOf ("token=".data ++ token.data) = ("token", token) := by
    unfold paramOf
    rw [show "token=".data ++ token.data = "token".data ++ ('=' :: token.data) from rfl]
    rw [afterChar_append_of_not_mem '=' _ _ (by decide)]
    rw [show afterChar '=' ('=' :: token.data) = some token.data from by simp [afterChar]]
    rw [takeWhile_append_stop _ _ _ _ (by decide) (by decide)]
  rw [hparam]
  simp [paramOf, List.lookup]

/-- Witness for C10 at a concrete base64url-style credential. -/
theorem c10_notebook_embeds_token_witness :
    (queryParams (notebookSrc ("abc.def-1_x"))).lookup ("token") = some ("abc.def-1_x") :=
  c10_notebook_embeds_token ("abc.def-1_x") (by decide)
lemma digitChar_isDigit (k : Nat) : (digitChar k).isDigit = true := by
  unfold digitChar
  split <;> rfl

lemma fmtBasicTS_data (y mo d h mi s : Nat) :
    (fmtBasicTS y mo d h mi s).data =
      [digitChar (y / 1000 % 10), digitChar (y / 100 % 10), digitChar (y / 10 % 10),
       digitChar (y % 10), '-', digitChar (mo / 10 % 10), digitChar (mo % 10), '-',
       digitChar (d / 10 % 10), digitChar (d % 10), 'T', digitChar (h / 10 % 10),
       digitChar (h % 10), ':', digitChar (mi / 10 % 10), digitChar (mi % 10), ':',
       digitChar (s / 10 % 10), digitChar (s % 10)] := rfl

lemma tsNoTZ_fmtBasicTS (y mo d h mi s : Nat) : tsNoTZ (fmtBasicTS y mo d h mi s) = true := by
  unfold tsNoTZ
  rw [fmtBasicTS_data]
  simp [digitChar_isDigit]

lemma fmtBasicTS_ne_empty (y mo d h mi s : Nat) : fmtBasicTS y mo d h mi s ≠ "" := by
  intro hcon
  have h2 := congrArg String.data hcon
  rw [fmtBasicTS_data] at h2
  exact List.noConfusion h2

/-- C9: the Datasets view timestamp formatter renders an absent or empty
timestamp as the empty string; a timestamp of the exact shape
YYYY-MM-DDTHH:MM:SS (no offset) is interpreted as UTC by appending Z
before parsing; any other nonempty string is passed to the date parser
unchanged (in particular strings carrying an explicit offset); rendering
is in the Asia/Ho_Chi_Minh timezone (UTC+7) with the modelled vi-VN
two-digit layout, as the concrete samples show (05:10:43 UTC renders as
12:10:43, and the same clock time with an explicit +07:00 offset renders
unchanged). -/
theorem c9_vietnamese_time (y mo d h mi s : Nat) (ds : String)
    (hne : ds ≠ "") (hts : tsNoTZ ds = false) :
    toVietnameseTime none = ""
    ∧ toVietnameseTime (some ("")) = ""
    ∧ tsNoTZ (fmtBasicTS y mo d h mi s) = true
    ∧ toVietnameseTime (some (fmtBasicTS y mo d h mi s))
        = renderDate (fmtBasicTS y mo d h mi s ++ "Z")
    ∧ toVietnameseTime (some ds) = renderDate ds
    ∧ toVietnameseTime (some ("2025-12-03T05:10:43")) = "12:10:43 03/12/2025"
    ∧ toVietnameseTime (some ("2025-12-03T05:10:43+07:00")) = "05:10:43 03/12/2025"
    ∧ renderDate ("2025-12-03T05:10:43Z") = "12:10:43 03/12/2025" := by
  have ht := tsNoTZ_fmtBasicTS y mo d h mi s
  refine ⟨rfl, rfl, ht, ?_, ?_, rfl, rfl, rfl⟩
  · unfold toVietnameseTime
    dsimp only
    have hb : (fmtBasicTS y mo d h mi s == "") = false :=
      beq_eq_false_iff_ne.mpr (fmtBasicTS_ne_empty y mo d h mi s)
    rw [hb, ht]
    simp
  · unfold toVietnameseTime
    dsimp only
    have hb : (ds == "") = false := beq_eq_false_iff_ne.mpr hne
    rw [hb, hts]
    simp

/-- Witness for C9 at the sample timestamp components and a sample
offset-carrying string. -/
theorem c9_vietnamese_time_witness :
    toVietnameseTime (some (fmtBasicTS 2025 12 3 5 10 43))
        = renderDate (fmtBasicTS 2025 12 3 5 10 43 ++ "Z")
    ∧ toVietnameseTime (some ("2025-12-03T05:10:43+07:00"))
        = renderDate ("2025-12-03T05:10:43+07:00") :=
  ⟨(c9_vietnamese_time 2025 12 3 5 10 43 ("2025-12-03T05:10:43+07:00")
      (by decide) (by decide)).2.2.2.1,
   (c9_vietnamese_time 2025 12 3 5 10 43 ("2025-12-03T05:10:43+07:00")
      (by decide) (by decide)).2.2.2.2.1⟩
lemma optOr_eq_none_parts {a b : Option JVal} (h : a.or b = none) : a = none ∧ b = none := by
  cases a <;> cases b <;> simp_all [Option.or]

lemma optOr_none_right (a : Option JVal) : a.or none = a := by
  cases a <;> rfl

lemma optOr_some_left (v : JVal) (b : Option JVal) : (some v).or b = some v := rfl

lemma subrec_eq_of_metrics (a b : SubRec) (hm : a.metrics = b.metrics)
    (h : fieldsExceptMetrics a = fieldsExceptMetrics b) : a = b := by
  obtain ⟨a1, a2, a3, a4, a5, a6, a7, a8, a9, a10, a11, a12, a13, a14, a15, a16, a17, a18⟩ := a
  obtain ⟨b1, b2, b3, b4, b5, b6, b7, b8, b9, b10, b11, b12, b13, b14, b15, b16, b17, b18⟩ := b
  unfold fieldsExceptMetrics at h
  simp only [Prod.mk.injEq] at h
  simp_all

lemma subrec_eq_of_eqOther (a b : SubRec) (h : eqOther a b)
    (h1 : a.f1 = b.f1) (h2 : a.precision = b.precision) (h3 : a.«recall» = b.«recall»)
    (h4 : a.accuracy = b.accuracy) (h5 : a.auc = b.auc) : a = b := by
  obtain ⟨e1, e2, e3, e4, e5, e6, e7, e8, e9, e10, e11, e12, e13⟩ := h
  obtain ⟨a1, a2, a3, a4, a5, a6, a7, a8, a9, a10, a11, a12, a13, a14, a15, a16, a17, a18⟩ := a
  obtain ⟨b1, b2, b3, b4, b5, b6, b7, b8, b9, b10, b11, b12, b13, b14, b15, b16, b17, b18⟩ := b
  simp_all

lemma subrec_eq_of_stage4 (a b : SubRec) (hacc : a.accuracy = b.accuracy)
    (hsc : a.score = b.score) (h : fieldsExceptStage4 a = fieldsExceptStage4 b) : a = b := by
  obtain ⟨a1, a2, a3, a4, a5, a6, a7, a8, a9, a10, a11, a12, a13, a14, a15, a16, a17, a18⟩ := a
  obtain ⟨b1, b2, b3, b4, b5, b6, b7, b8, b9, b10, b11, b12, b13, b14, b15, b16, b17, b18⟩ := b
  unfold fieldsExceptStage4 at h
  simp only [Prod.mk.injEq] at h
  simp_all

lemma subrec_eq_of_uploaded (a b : SubRec) (hu : a.uploaded_at = b.uploaded_at)
    (h : fieldsExceptUploaded a = fieldsExceptUploaded b) : a = b := by
  obtain ⟨a1, a2, a3, a4, a5, a6, a7, a8, a9, a10, a11, a12, a13, a14, a15, a16, a17, a18⟩ := a
  obtain ⟨b1, b2, b3, b4, b5, b6, b7, b8, b9, b10, b11, b12, b13, b14, b15, b16, b17, b18⟩ := b
  unfold fieldsExceptUploaded at h
  simp only [Prod.mk.injEq] at h
  simp_all

lemma subrec_eq_of_filename (a b : SubRec) (hf : a.filename = b.filename)
    (h : fieldsExceptFilename a = fieldsExceptFilename b) : a = b := by
  obtain ⟨a1, a2, a3, a4, a5, a6, a7, a8, a9, a10, a11, a12, a13, a14, a15, a16, a17, a18⟩ := a
  obtain ⟨b1, b2, b3, b4, b5, b6, b7, b8, b9, b10, b11, b12, b13, b14, b15, b16, b17, b18⟩ := b
  unfold fieldsExceptFilename at h
  simp only [Prod.mk.injEq] at h
  simp_all

lemma normalizeSub_score_json (r : SubRec) : (normalizeSub r).score_json = r.score_json := by
  show (stage6 (stage5 (stage4 (stage3 (stage2 (stage1 r)))))).score_json = r.score_json
  rw [stage6_score_json, stage5_score_json, stage4_score_json, stage3_score_json,
    stage2_score_json, stage1_score_json]

lemma normalizeSub_metrics (r : SubRec) :
    (normalizeSub r).metrics = stage12m r.score_json r.metrics := by
  show (stage6 (stage5 (stage4 (stage3 (stage2 (stage1 r)))))).metrics = _
  rw [stage6_metrics, stage5_metrics, stage4_metrics, stage3_metrics, stage12_metrics]

lemma metricsParse1_idem (m : Option JVal)
    (h : ∀ u, metricsParse1 m = some (.str u) → parseJson u = none) :
    metricsParse1 (metricsParse1 m) = metricsParse1 m := by
  rcases hm : metricsParse1 m with _ | w
  · rfl
  · cases w
    case str t =>
      show (match parseJson t with
        | some v => some v
        | none => some (JVal.str t)) = some (JVal.str t)
      rw [h t hm]
    all_goals rfl

lemma stage12m_idem (sj m : Option JVal)
    (h1 : ∀ u, stage12m sj m = some (.str u) → parseJson u = none)
    (h2 : ∀ v, sj = some v → truthy v = true → isStringV v = false → isObjectTypeof v = true →
      stage12m sj m ≠ none ∧ stage12m sj m ≠ some JVal.null) :
    stage12m sj (stage12m sj m) = stage12m sj m := by
  rcases sj with _ | v
  · exact metricsParse1_idem m h1
  · cases v
    case null => exact metricsParse1_idem m h1
    case bool b => exact metricsParse1_idem m h1
    case num q => exact metricsParse1_idem m h1
    case str s =>
      by_cases hs : s = ""
      · subst hs
        show metricsParse1 (if ("" : String) = "" then stage12m (some (.str "")) m else parseJson "")
            = stage12m (some (.str "")) m
        rw [if_pos rfl]
        show metricsParse1 (metricsParse1 (if ("" : String) = "" then m else parseJson ""))
            = metricsParse1 (if ("" : String) = "" then m else parseJson "")
        rw [if_pos rfl]
        exact metricsParse1_idem m (by
          intro u hu
          apply h1
          show metricsParse1 (if ("" : String) = "" then m else parseJson "") = some (.str u)
          rw [if_pos rfl]
          exact hu)
      · show metricsParse1 (if s = "" then stage12m (some (.str s)) m else parseJson s)
            = metricsParse1 (if s = "" then m else parseJson s)
        rw [if_neg hs, if_neg hs]
    case obj fs =>
      obtain ⟨hn, hnull⟩ := h2 (.obj fs) rfl rfl rfl rfl
      show metricsParse1 (some (jsNullish (stage12m (some (.obj fs)) m) (.obj fs)))
          = stage12m (some (.obj fs)) m
      rcases hM : stage12m (some (.obj fs)) m with _ | w
      · exact absurd hM hn
      · cases w
        case null => exact absurd hM hnull
        case str t =>
          show (match parseJson t with
            | some v => some v
            | none => some (JVal.str t)) = some (JVal.str t)
          rw [h1 t hM]
        all_goals rfl
    case arr xs =>
      obtain ⟨hn, hnull⟩ := h2 (.arr xs) rfl rfl rfl rfl
      show metricsParse1 (some (jsNullish (stage12m (some (.arr xs)) m) (.arr xs)))
          = stage12m (some (.arr xs)) m
      rcases hM : stage12m (some (.arr xs)) m with _ | w
      · exact absurd hM hn
      · cases w
        case null => exact absurd hM hnull
        case str t =>
          show (match parseJson t with
            | some v => some v
            | none => some (JVal.str t)) = some (JVal.str t)
          rw [h1 t hM]
        all_goals rfl

lemma stage3_fix (r : SubRec) : stage3 (normalizeSub r) = normalizeSub r := by
  have hmet : (normalizeSub r).metrics = (stage2 (stage1 r)).metrics := by
    show (stage6 (stage5 (stage4 (stage3 (stage2 (stage1 r)))))).metrics = _
    rw [stage6_metrics, stage5_metrics, stage4_metrics, stage3_metrics]
  have hf1 : (normalizeSub r).f1 = (stage3 (stage2 (stage1 r))).f1 := by
    show (stage6 (stage5 (stage4 (stage3 (stage2 (stage1 r)))))).f1 = _
    rw [stage6_f1, stage5_f1, stage4_f1]
  have hpr : (normalizeSub r).precision = (stage3 (stage2 (stage1 r))).precision := by
    show (stage6 (stage5 (stage4 (stage3 (stage2 (stage1 r)))))).precision = _
    rw [stage6_precision, stage5_precision, stage4_precision]
  have hrc : (normalizeSub r).«recall» = (stage3 (stage2 (stage1 r))).«recall» := by
    show (stage6 (stage5 (stage4 (stage3 (stage2 (stage1 r)))))).«recall» = _
    rw [stage6_recall, stage5_recall, stage4_recall]
  have hau : (normalizeSub r).auc = (stage3 (stage2 (stage1 r))).auc := by
    show (stage6 (stage5 (stage4 (stage3 (stage2 (stage1 r)))))).auc = _
    rw [stage6_auc, stage5_auc, stage4_auc]
  have hac : (normalizeSub r).accuracy
      = ((stage3 (stage2 (stage1 r))).accuracy).or ((stage3 (stage2 (stage1 r))).auc) := by
    show (stage6 (stage5 (stage4 (stage3 (stage2 (stage1 r)))))).accuracy = _
    rw [stage6_accuracy, stage5_accuracy, stage4_accuracy]
  have hvanish : ∀ n, n ∈ metricKeys → ∀ m, (normalizeSub r).metrics = some m →
      (truthy m && isObjectTypeof m) = true → getNamed (normalizeSub r) n = none →
      jsGet m n = none ∧ resultsLookup m n = none := by
    intro n hn m hm hg hnone
    have hc2m : (stage2 (stage1 r)).metrics = some m := by rw [← hmet, hm]
    have hchar := getNamed_stage3 (stage2 (stage1 r)) n hn
    rw [hc2m] at hchar
    dsimp only at hchar
    rw [if_pos hg] at hchar
    have hkeys := hn
    simp only [metricKeys, List.mem_cons, List.not_mem_nil, or_false] at hkeys
    rcases hkeys with rfl | rfl | rfl | rfl | rfl
    · rw [(getNamed_eq_field (normalizeSub r)).1, hf1,
        ← (getNamed_eq_field (stage3 (stage2 (stage1 r)))).1, hchar] at hnone
      obtain ⟨ho, hrl⟩ := optOr_eq_none_parts hnone
      exact ⟨(optOr_eq_none_parts ho).2, hrl⟩
    · rw [(getNamed_eq_field (normalizeSub r)).2.1, hpr,
        ← (getNamed_eq_field (stage3 (stage2 (stage1 r)))).2.1, hchar] at hnone
      obtain ⟨ho, hrl⟩ := optOr_eq_none_parts hnone
      exact ⟨(optOr_eq_none_parts ho).2, hrl⟩
    · rw [(getNamed_eq_field (normalizeSub r)).2.2.1, hrc,
        ← (getNamed_eq_field (stage3 (stage2 (stage1 r)))).2.2.1, hchar] at hnone
      obtain ⟨ho, hrl⟩ := optOr_eq_none_parts hnone
      exact ⟨(optOr_eq_none_parts ho).2, hrl⟩
    · rw [(getNamed_eq_field (normalizeSub r)).2.2.2.1, hac] at hnone
      have hacc3 := (optOr_eq_none_parts hnone).1
      rw [← (getNamed_eq_field (stage3 (stage2 (stage1 r)))).2.2.2.1, hchar] at hacc3
      obtain ⟨ho, hrl⟩ := optOr_eq_none_parts hacc3
      exact ⟨(optOr_eq_none_parts ho).2, hrl⟩
    · rw [(getNamed_eq_field (normalizeSub r)).2.2.2.2, hau,
        ← (getNamed_eq_field (stage3 (stage2 (stage1 r)))).2.2.2.2, hchar] at hnone
      obtain ⟨ho, hrl⟩ := optOr_eq_none_parts hnone
      exact ⟨(optOr_eq_none_parts ho).2, hrl⟩
  have hfix : ∀ n, n ∈ metricKeys → getNamed (stage3 (normalizeSub r)) n = getNamed (normalizeSub r) n := by
    intro n hn
    rw [getNamed_stage3 (normalizeSub r) n hn]
    rcases hm : (normalizeSub r).metrics with _ | m
    · rfl
    · dsimp only
      by_cases hg : (truthy m && isObjectTypeof m) = true
      · rw [if_pos hg]
        rcases hv : getNamed (normalizeSub r) n with _ | v
        · obtain ⟨hj, hrl⟩ := hvanish n hn m hm hg hv
          rw [hj, hrl]
          rfl
        · rfl
      · rw [if_neg hg]
  refine subrec_eq_of_eqOther _ _ (stage3_eqOther (normalizeSub r)) ?_ ?_ ?_ ?_ ?_
  · have h := hfix ("f1") (by simp [metricKeys])
    rwa [(getNamed_eq_field _).1, (getNamed_eq_field _).1] at h
  · have h := hfix ("precision") (by simp [metricKeys])
    rwa [(getNamed_eq_field _).2.1, (getNamed_eq_field _).2.1] at h
  · have h := hfix ("recall") (by simp [metricKeys])
    rwa [(getNamed_eq_field _).2.2.1, (getNamed_eq_field _).2.2.1] at h
  · have h := hfix ("accuracy") (by simp [metricKeys])
    rwa [(getNamed_eq_field _).2.2.2.1, (getNamed_eq_field _).2.2.2.1] at h
  · have h := hfix ("auc") (by simp [metricKeys])
    rwa [(getNamed_eq_field _).2.2.2.2, (getNamed_eq_field _).2.2.2.2] at h

lemma optOr_absorb (a b : Option JVal) (h : a = none → b = none) : a.or b = a := by
  rcases a with _ | v
  · rw [h rfl]
    rfl
  · rfl

lemma stage4_fix (r : SubRec) : stage4 (normalizeSub r) = normalizeSub r := by
  have hau : (normalizeSub r).auc = (stage3 (stage2 (stage1 r))).auc := by
    show (stage6 (stage5 (stage4 (stage3 (stage2 (stage1 r)))))).auc = _
    rw [stage6_auc, stage5_auc, stage4_auc]
  have hac : (normalizeSub r).accuracy
      = ((stage3 (stage2 (stage1 r))).accuracy).or ((stage3 (stage2 (stage1 r))).auc) := by
    show (stage6 (stage5 (stage4 (stage3 (stage2 (stage1 r)))))).accuracy = _
    rw [stage6_accuracy, stage5_accuracy, stage4_accuracy]
  have hsc : (normalizeSub r).score
      = ((stage3 (stage2 (stage1 r))).score).or
          (((stage3 (stage2 (stage1 r))).auc).or ((stage3 (stage2 (stage1 r))).accuracy)) := by
    show (stage6 (stage5 (stage4 (stage3 (stage2 (stage1 r)))))).score = _
    rw [stage6_score, stage5_score, stage4_score]
  refine subrec_eq_of_stage4 _ _ ?_ ?_ (stage4_keeps _)
  · rw [stage4_accuracy]
    apply optOr_absorb
    intro hnone
    rw [hac] at hnone
    rw [hau, (optOr_eq_none_parts hnone).2]
  · rw [stage4_score]
    apply optOr_absorb
    intro hnone
    rw [hsc] at hnone
    obtain ⟨hs3, hrest⟩ := optOr_eq_none_parts hnone
    obtain ⟨hau3, hac3⟩ := optOr_eq_none_parts hrest
    rw [hau, hac, hau3, hac3]
    rfl

lemma stage5_fix (r : SubRec) : stage5 (normalizeSub r) = normalizeSub r := by
  have hform : (normalizeSub r).uploaded_at =
      (if truthyO (stage4 (stage3 (stage2 (stage1 r)))).uploaded_at then
        (stage4 (stage3 (stage2 (stage1 r)))).uploaded_at
      else if truthyO (stage4 (stage3 (stage2 (stage1 r)))).created_at then
        (stage4 (stage3 (stage2 (stage1 r)))).created_at
      else if truthyO (stage4 (stage3 (stage2 (stage1 r)))).created then
        (stage4 (stage3 (stage2 (stage1 r)))).created
      else (stage4 (stage3 (stage2 (stage1 r)))).uploaded_at) := by
    show (stage6 (stage5 (stage4 (stage3 (stage2 (stage1 r)))))).uploaded_at = _
    rw [stage6_uploaded_at, stage5_uploaded]
  have hca : (normalizeSub r).created_at = (stage4 (stage3 (stage2 (stage1 r)))).created_at := by
    show (stage6 (stage5 (stage4 (stage3 (stage2 (stage1 r)))))).created_at = _
    rw [stage6_created_at, stage5_created_at]
  have hcr : (normalizeSub r).created = (stage4 (stage3 (stage2 (stage1 r)))).created := by
    show (stage6 (stage5 (stage4 (stage3 (stage2 (stage1 r)))))).created = _
    rw [stage6_created, stage5_created]
  refine subrec_eq_of_uploaded _ _ ?_ (stage5_keeps _)
  rw [stage5_uploaded]
  by_cases hu : truthyO (normalizeSub r).uploaded_at = true
  · rw [if_pos hu]
  · rw [if_neg hu]
    by_cases b1 : truthyO (stage4 (stage3 (stage2 (stage1 r)))).uploaded_at = true
    · rw [hform, if_pos b1] at hu
      exact absurd b1 hu
    · by_cases b2 : truthyO (stage4 (stage3 (stage2 (stage1 r)))).created_at = true
      · rw [hform, if_neg b1, if_pos b2] at hu
        exact absurd b2 hu
      · by_cases b3 : truthyO (stage4 (stage3 (stage2 (stage1 r)))).created = true
        · rw [hform, if_neg b1, if_neg b2, if_pos b3] at hu
          exact absurd b3 hu
        · rw [hca, if_neg b2, hcr, if_neg b3]

lemma stage6_fix (r : SubRec) : stage6 (normalizeSub r) = normalizeSub r := by
  have hform : (normalizeSub r).filename =
      (if truthyO (stage5 (stage4 (stage3 (stage2 (stage1 r))))).filename then
        (stage5 (stage4 (stage3 (stage2 (stage1 r))))).filename
      else
        match jsOr (jsOr (jsOr (stage5 (stage4 (stage3 (stage2 (stage1 r))))).file_name
            (stage5 (stage4 (stage3 (stage2 (stage1 r))))).file_path)
            (stage5 (stage4 (stage3 (stage2 (stage1 r))))).path)
            (stage5 (stage4 (stage3 (stage2 (stage1 r))))).storage_path with
        | some f =>
          if truthy f then some (.str (lastSeg (jsToString f)))
          else (stage5 (stage4 (stage3 (stage2 (stage1 r))))).filename
        | none => (stage5 (stage4 (stage3 (stage2 (stage1 r))))).filename) := by
    show (stage6 (stage5 (stage4 (stage3 (stage2 (stage1 r)))))).filename = _
    rw [stage6_filename]
  have hfn : (normalizeSub r).file_name = (stage5 (stage4 (stage3 (stage2 (stage1 r))))).file_name := by
    show (stage6 (stage5 (stage4 (stage3 (stage2 (stage1 r)))))).file_name = _
    rw [stage6_file_name]
  have hfp : (normalizeSub r).file_path = (stage5 (stage4 (stage3 (stage2 (stage1 r))))).file_path := by
    show (stage6 (stage5 (stage4 (stage3 (stage2 (stage1 r)))))).file_path = _
    rw [stage6_file_path]
  have hpa : (normalizeSub r).path = (stage5 (stage4 (stage3 (stage2 (stage1 r))))).path := by
    show (stage6 (stage5 (stage4 (stage3 (stage2 (stage1 r)))))).path = _
    rw [stage6_path]
  have hsp : (normalizeSub r).storage_path
      = (stage5 (stage4 (stage3 (stage2 (stage1 r))))).storage_path := by
    show (stage6 (stage5 (stage4 (stage3 (stage2 (stage1 r)))))).storage_path = _
    rw [stage6_storage_path]
  refine subrec_eq_of_filename _ _ ?_ (stage6_keeps _)
  rw [stage6_filename]
  by_cases hf : truthyO (normalizeSub r).filename = true
  · rw [if_pos hf]
  · rw [if_neg hf]
    rw [hfn, hfp, hpa, hsp]
    by_cases b1 : truthyO (stage5 (stage4 (stage3 (stage2 (stage1 r))))).filename = true
    · rw [hform, if_pos b1] at hf
      exact absurd b1 hf
    · rcases hF : jsOr (jsOr (jsOr (stage5 (stage4 (stage3 (stage2 (stage1 r))))).file_name
          (stage5 (stage4 (stage3 (stage2 (stage1 r))))).file_path)
          (stage5 (stage4 (stage3 (stage2 (stage1 r))))).path)
          (stage5 (stage4 (stage3 (stage2 (stage1 r))))).storage_path with _ | f
      · rfl
      · dsimp only
        by_cases bt : truthy f = true
        · rw [if_pos bt]
          rw [hF] at hform
          rw [if_neg b1] at hform
          dsimp only at hform
          rw [if_pos bt] at hform
          exact hform.symm
        · rw [if_neg bt]

/-- The C3 counterexample record: metrics holds a doubly JSON-encoded
object (a JSON string whose decoded value is itself JSON text). -/
def subDoubleEncoded : SubRec :=
  { metrics := some (.str ("\"\x7b\\\"f1\\\":0.5\x7d\"")) }

/-- Counterexample to C3: the normalizer is not idempotent.  With a
doubly JSON-encoded metrics string, the first pass unwraps one level of
encoding (metrics becomes the inner JSON text, still a string, and no
metric is promoted), and the second pass parses that text and promotes
f1 — so normalizing twice differs from normalizing once. -/
theorem c3_not_idempotent :
    normalizeSub (normalizeSub subDoubleEncoded) ≠ normalizeSub subDoubleEncoded := by
  intro h
  have h1 : (normalizeSub (normalizeSub subDoubleEncoded)).f1.isSome = true := rfl
  rw [h] at h1
  have h2 : (normalizeSub subDoubleEncoded).f1.isSome = false := rfl
  exact Bool.noConfusion (h1.symm.trans h2)

/-- C3 amended: the normalizer is idempotent on every record whose
once-normalized metrics is settled — not a string that still parses as
JSON, and, when score_json holds a truthy non-string value of object
type, not undefined and not JSON null.  (The fallback stages 3 to 6
never overwrite, so they are individually idempotent; only the metrics
unwrapping can make a second pass differ, by unwrapping one more level
of a doubly JSON-encoded metrics value or re-aliasing a null metrics
from an object score_json.) -/
theorem c3_idempotent_amended (r : SubRec)
    (h1 : ∀ u, (normalizeSub r).metrics = some (.str u) → parseJson u = none)
    (h2 : ∀ v, r.score_json = some v → truthy v = true → isStringV v = false →
      isObjectTypeof v = true →
      (normalizeSub r).metrics ≠ none ∧ (normalizeSub r).metrics ≠ some JVal.null) :
    normalizeSub (normalizeSub r) = normalizeSub r := by
  have hA : stage2 (stage1 (normalizeSub r)) = normalizeSub r := by
    apply subrec_eq_of_metrics
    · rw [stage12_metrics, normalizeSub_score_json, normalizeSub_metrics]
      refine stage12m_idem _ _ ?_ ?_
      · intro u hu
        apply h1
        rw [normalizeSub_metrics]
        exact hu
      · intro v hv ht hs ho
        have hres := h2 v hv ht hs ho
        rw [normalizeSub_metrics] at hres
        exact hres
    · exact (stage2_keeps _).trans (stage1_keeps _)
  show stage6 (stage5 (stage4 (stage3 (stage2 (stage1 (normalizeSub r)))))) = normalizeSub r
  rw [hA, stage3_fix, stage4_fix, stage5_fix, stage6_fix]

/-- Witness for C3 amended at a concrete settled record: score_json an
object with lowercase auc; its normalization is a fixed point. -/
theorem c3_idempotent_amended_witness :
    normalizeSub (normalizeSub { score_json := some (.obj [("auc", .num (mkRat 91 100))]) })
      = normalizeSub { score_json := some (.obj [("auc", .num (mkRat 91 100))]) } := by
  refine c3_idempotent_amended _ ?_ ?_
  · intro u hu
    rw [show (normalizeSub { score_json := some (.obj [("auc", .num (mkRat 91 100))]) }).metrics
        = some (.obj [("auc", .num (mkRat 91 100))]) from rfl] at hu
    exact JVal.noConfusion (Option.some.inj hu)
  · intro v hv ht hs ho
    constructor
    · rw [show (normalizeSub { score_json := some (.obj [("auc", .num (mkRat 91 100))]) }).metrics
          = some (.obj [("auc", .num (mkRat 91 100))]) from rfl]
      intro hcon
      exact Option.noConfusion hcon
    · rw [show (normalizeSub { score_json := some (.obj [("auc", .num (mkRat 91 100))]) }).metrics
          = some (.obj [("auc", .num (mkRat 91 100))]) from rfl]
      intro hcon
      exact JVal.noConfusion (Option.some.inj hcon)
